import Mathlib

set_option linter.unusedVariables false

/-!
Verification development for the math-formula add-on
(`math_formula/interpreter.py` and `math_formula/mf_parser.py`).

The interpreter is embedded as a state-passing function over an explicit
state record; calls into the graph backend (`bpy`) are recorded as an
event trace, since the backend itself is external to the repository.
The parser is embedded as a fuel-indexed state monad with exceptions
(Python exceptions escaping `parse` are modelled by the `Except` layer).
-/

namespace MF

/-- Modelled from the spec: the `DataType` enum of `backends/type_defs.py`
(the file is not part of the sources here).  The constructors are the ones
named by `Interpreter.data_type_to_socket_type` plus the `UNKNOWN` and
`DEFAULT` members used by the parser. -/
inductive DataType where
  | BOOL | INT | FLOAT | RGBA | VEC3 | GEOMETRY | STRING | SHADER | OBJECT
  | IMAGE | COLLECTION | TEXTURE | MATERIAL | ROTATION | UNKNOWN | DEFAULT
deriving Repr, DecidableEq, Inhabited

/-- Modelled from the spec: the `OpType` enum of `backends/type_defs.py`.
Exactly the thirteen operation kinds handled by `Interpreter.operation`
(the source asserts `OpType.END_OF_STATEMENT.value == 11`, and the
constructor order below realizes that ordinal). -/
inductive OpType where
  | PUSH_VALUE | CREATE_VAR | GET_VAR | GET_OUTPUT | SET_OUTPUT
  | SET_FUNCTION_OUT | SPLIT_STRUCT | CALL_FUNCTION | CALL_NODEGROUP
  | CALL_BUILTIN | RENAME_NODE | END_OF_STATEMENT | PACK_LIST
deriving Repr, DecidableEq, Inhabited

mutual
/-- The runtime value universe of the interpreter.  Python is dynamically
typed; this type covers exactly the payload shapes `Interpreter.operation`
dispatches on by `isinstance`:  backend sockets (`NodeSocket`, identified by
owning node id and output index), Python lists, ints, floats (kept opaque as
their textual form — no claim computes with float values), strings, bools,
`None`, `ast_defs.Name`, `ast_defs.ListLiteral`, the `(index, value)` tuple
payload of `SET_OUTPUT`, and the three descriptor objects.  `foreignObj`
stands for any other host object (inert: every `isinstance` test fails). -/
inductive Value where
  | socket (node : Nat) (idx : Nat)
  | vlist (elems : List Value)
  | vint (n : Int)
  | vfloat (r : String)
  | vstr (s : String)
  | vbool (b : Bool)
  | vnone
  | name (id : String)
  | listLit (elements : List Value)
  | pair (idx : Int) (val : Value)
  | func (f : CompiledFunction)
  | group (g : CompiledNodeGroup)
  | builtin (b : NodeInstance)
  | foreignObj (tag : String)

/-- `CompiledFunction{inputs, num_outputs, body}` (descriptor shape from
`backends/type_defs.py`, as described in spec section 6). -/
inductive CompiledFunction where
  | mk (inputs : List String) (num_outputs : Nat) (body : List Operation)

/-- `CompiledNodeGroup{name, inputs, outputs, body}`. -/
inductive CompiledNodeGroup where
  | mk (gname : String) (inputs : List SocketDecl) (outputs : List SocketDecl)
      (body : List Operation)

/-- A typed input/output declaration of a node group: `{name, dtype, value}`. -/
inductive SocketDecl where
  | mk (sname : String) (dtype : DataType) (value : Option Value)

/-- `NodeInstance{key, props, inputs, outputs}`: a builtin node descriptor
(node type id, fixed property assignments, input/output port indices). -/
inductive NodeInstance where
  | mk (key : String) (props : List (String × Value)) (inputs : List Nat)
      (outputs : List Nat)

/-- One operation-stream item: `Operation(op_type, data)`.  The payload is a
single dynamically-typed slot, exactly as in the Python source. -/
inductive Operation where
  | mk (op_type : OpType) (data : Value)
end

def CompiledFunction.inputs : CompiledFunction → List String
  | .mk i _ _ => i

def CompiledFunction.num_outputs : CompiledFunction → Nat
  | .mk _ n _ => n

def CompiledFunction.body : CompiledFunction → List Operation
  | .mk _ _ b => b

def CompiledNodeGroup.gname : CompiledNodeGroup → String
  | .mk n _ _ _ => n

def CompiledNodeGroup.inputs : CompiledNodeGroup → List SocketDecl
  | .mk _ i _ _ => i

def CompiledNodeGroup.outputs : CompiledNodeGroup → List SocketDecl
  | .mk _ _ o _ => o

def CompiledNodeGroup.body : CompiledNodeGroup → List Operation
  | .mk _ _ _ b => b

def NodeInstance.key : NodeInstance → String
  | .mk k _ _ _ => k

def NodeInstance.inputs : NodeInstance → List Nat
  | .mk _ _ i _ => i

def NodeInstance.outputs : NodeInstance → List Nat
  | .mk _ _ _ o => o

def Operation.op_type : Operation → OpType
  | .mk t _ => t

def Operation.data : Operation → Value
  | .mk _ d => d

/-- A port reference on a backend node: by index (`node.inputs[i]`) or by
name (`node.inputs["Geometry"]`). -/
inductive PortRef where
  | idx (i : Nat)
  | named (s : String)
deriving Repr, DecidableEq

/-- One observable call into the graph backend (`bpy`).  The backend itself
is external; the interpreter's effect on it is recorded as a trace. -/
inductive BEvent where
  | newNode (tree : Nat) (key : String) (node : Nat)
  | setProp (node : Nat) (propName : String) (v : Value)
  | link (srcNode srcIdx : Nat) (dstNode : Nat) (dstPort : PortRef)
  | setInputDefault (node : Nat) (port : PortRef) (v : Value)
  | setOutputDefault (node : Nat) (idx : Int) (v : Value)
  | setLabel (node : Nat) (v : Value)
  | newGroupTree (gname : String) (tree : Nat)
  | newInterfaceSocket (tree : Nat) (sname : String) (isInput : Bool) (sockType : String)
  | setInterfaceDefault (tree : Nat) (sname : String) (isInput : Bool) (v : Value)
  | newGroupRefNode (tree : Nat) (key : String) (gname : String) (node : Nat)

/-- What the interpreter remembers about a node-group inner tree it built:
the backend handle and the number of declared interface outputs (which is
what `len(node.outputs)` of a reference node bound to this tree yields). -/
structure TreeInfo where
  tree_id : Nat
  num_outputs : Nat
deriving Repr, DecidableEq

/-- Internal contract violations of the interpreter, mirrored from the
Python exceptions the source can raise: `AssertionError` (with its message),
`IndexError` (list indexing / popping an empty list), `KeyError`
(`self.variables[name]` on an unbound name).  `chaseDiverged` marks the one
place the source does not terminate: the unguarded name-chasing loop of
`CREATE_VAR` run past its finite-map bound (see `chase_none_diverges`). -/
inductive IErr where
  | assertionFailed (msg : String)
  | indexError
  | keyError
  | chaseDiverged
deriving Repr, DecidableEq

/-- The mutable state of one `Interpreter` instance (fields in source
order; `vars` models `self.variables` — that identifier is reserved in
Lean), plus the bookkeeping the backend boundary needs: fresh node/tree
ids and the event trace.  `bl_idname` is the tree kind of the root tree
(`GeometryNodeTree` or `ShaderNodeTree`); created group trees inherit it. -/
structure IState where
  bl_idname : String
  tree : Nat
  stack : List Value
  nodes : List Nat
  node_group_trees : List (String × TreeInfo)
  vars : List (String × Value)
  function_outputs : List (Option Value)
  socket_table : List (String × Value)
  next_node : Nat
  next_tree : Nat
  trace : List BEvent

/-- `Interpreter.__init__`: empty stack, nodes, caches and tables. -/
def init_state (bl : String) : IState :=
  ⟨bl, 0, [], [], [], [], [], [], 0, 1, []⟩

/-- Record one backend call. -/
def emit (e : BEvent) (s : IState) : IState :=
  {s with trace := s.trace ++ [e]}

/-- Python `dict.get`: ordered association list lookup. -/
def dictGet (d : List (String × α)) (k : String) : Option α :=
  (d.find? (fun p => p.1 == k)).map (fun p => p.2)

/-- Python `dict` assignment `d[k] = v`: replace in place if the key is
present, else append. -/
def dictSet (d : List (String × α)) (k : String) (v : α) : List (String × α) :=
  if (d.find? (fun p => p.1 == k)).isSome then
    d.map (fun p => if p.1 == k then (k, v) else p)
  else d ++ [(k, v)]

/-- `Interpreter.get_args`: `stack[-num_args:]` / `stack[:-num_args]`.
The stack is represented head-first (head = Python `stack[-1]`), so the
last `num_args` Python elements in left-to-right order are
`(stack.take num_args).reverse`.  As in Python slicing, a short stack
yields fewer arguments, never an error; `num_args == 0` is special-cased
exactly as in the source. -/
def get_args (stack : List Value) (num_args : Nat) : List Value × List Value :=
  if num_args = 0 then ([], stack)
  else ((stack.take num_args).reverse, stack.drop num_args)

/-- Python list indexing `l[j]` with possibly negative `j`. -/
def pyIndex (l : List α) (j : Int) : Option α :=
  if 0 ≤ j then l.get? j.toNat
  else if (-j).toNat ≤ l.length then l.get? (l.length - (-j).toNat)
  else none

/-- Python list item assignment `l[j] = v` (`none` = `IndexError`). -/
def pyListSet (l : List α) (j : Int) (v : α) : Option (List α) :=
  if 0 ≤ j then (if j.toNat < l.length then some (l.set j.toNat v) else none)
  else if (-j).toNat ≤ l.length then some (l.set (l.length - (-j).toNat) v)
  else none

/-- One step of the `CREATE_VAR` name-resolution loop
(`socket = self.variables.get(var_id, socket)`). -/
def chaseStep (vars : List (String × Value)) (v : Value) : Value :=
  match v with
  | .name id => (dictGet vars id).getD (.name id)
  | v => v

/-- The `CREATE_VAR` loop `while isinstance(socket, ast_defs.Name)`,
bounded by fuel.  `none` means the loop is still on a `Name` after `fuel`
steps; with fuel `vars.length + 1` that implies the Python loop never
terminates (the chased values repeat, see `chase_none_diverges`). -/
def chase (vars : List (String × Value)) : Nat → Value → Option Value
  | fuel, v =>
    match v with
    | .name id =>
      match fuel with
      | 0 => none
      | fuel' + 1 => chase vars fuel' ((dictGet vars id).getD (.name id))
    | v => some v

/-- Is `v` a `Name` reference (the loop guard `isinstance(socket, Name)`)? -/
def isNameRef (v : Value) : Bool :=
  match v with
  | .name _ => true
  | _ => false

/-- The unbounded chase: the value after `n` iterations of the source loop. -/
def chaseN (vars : List (String × Value)) (n : Nat) (v : Value) : Value :=
  match n with
  | 0 => v
  | n + 1 => chaseN vars n (chaseStep vars v)

/-- The source's `CREATE_VAR` while-loop terminates on `v`: some finite
number of steps reaches a non-`Name` value. -/
def chaseTerminates (vars : List (String × Value)) (v : Value) : Prop :=
  ∃ n, isNameRef (chaseN vars n v) = false

/-- `assert isinstance(socket, (NodeSocket, list, int))` — note that Python
`bool` is a subclass of `int`, so bools pass this check too. -/
def create_var_ok (v : Value) : Bool :=
  match v with
  | .socket _ _ => true
  | .vlist _ => true
  | .vint _ => true
  | .vbool _ => true
  | _ => false

/-- The canonical textual identity `str(socket)` used as `socket_table`
key.  Modelled injectively on sockets; all other values map to a string
that is never a socket key (only socket keys are ever inserted). -/
def socketKey (node idx : Nat) : String :=
  "socket#" ++ toString node ++ "#" ++ toString idx

def strOfValue : Value → String
  | .socket n i => socketKey n i
  | _ => "not-a-socket"

/-- `Interpreter.get_output_socket`.  The `hasattr(value, "socket")` branch
of the source has no counterpart here: no value in the model carries a
`.socket` attribute, so that branch is unreachable. -/
def get_output_socket (s : IState) (v : Value) : Value :=
  match v with
  | .vlist vs => .vlist (vs.attach.map (fun x => get_output_socket s x.1))
  | v =>
    match dictGet s.socket_table (strOfValue v) with
    | some w => w
    | none => v
termination_by sizeOf v
decreasing_by
  have := List.sizeOf_lt_of_mem x.2
  simp only [Value.vlist.sizeOf_spec]
  omega

/-- Resolution of aliased `Name` arguments inside `add_builtin`
(`if isinstance(geo_input, ast_defs.Name): geo_input = self.variables.get(...)`). -/
def resolve_geo (s : IState) (v : Value) : Value :=
  match v with
  | .name id => (dictGet s.vars id).getD (.name id)
  | v => v

/-- `Interpreter.data_type_to_socket_type`; `none` is the
`assert False, "Unreachable"` default branch. -/
def data_type_to_socket_type : DataType → Option String
  | .BOOL => some "NodeSocketBool"
  | .INT => some "NodeSocketInt"
  | .FLOAT => some "NodeSocketFloat"
  | .RGBA => some "NodeSocketColor"
  | .VEC3 => some "NodeSocketVector"
  | .GEOMETRY => some "NodeSocketGeometry"
  | .STRING => some "NodeSocketString"
  | .SHADER => some "NodeSocketShader"
  | .OBJECT => some "NodeSocketObject"
  | .IMAGE => some "NodeSocketImage"
  | .COLLECTION => some "NodeSocketCollection"
  | .TEXTURE => some "NodeSocketTexture"
  | .MATERIAL => some "NodeSocketMaterial"
  | .ROTATION => some "NodeSocketRotation"
  | _ => none

/-- The interface-socket creation loops of `execute_node_group`
(`node_tree.interface.new_socket(...)` for each declared input/output,
plus the optional default value assignment). -/
def new_interface_sockets (tr : Nat) (isInput : Bool) :
    List SocketDecl → IState → Except IErr IState
  | [], s => .ok s
  | .mk nm dt dv :: rest, s =>
    match data_type_to_socket_type dt with
    | none => .error (.assertionFailed "Unreachable")
    | some st =>
      let s := emit (.newInterfaceSocket tr nm isInput st) s
      let s :=
        match dv with
        | some v => emit (.setInterfaceDefault tr nm isInput v) s
        | none => s
      new_interface_sockets tr isInput rest s

/-- `self.variables = {}` followed by `for name, arg in zip(...)` binding. -/
def zipBind : List String → List Value → List (String × Value) →
    List (String × Value)
  | nm :: nms, a :: rest, d => zipBind nms rest (dictSet d nm a)
  | _, _, d => d

/-- `for socket in group_input.outputs: self.variables[socket.name] = socket`:
the group-input gateway node exposes one output socket per declared input
(its trailing virtual socket is a backend detail not modelled). -/
def bind_group_inputs (giNode : Nat) (inputs : List SocketDecl) :
    List (String × Value) :=
  (inputs.enum).foldl
    (fun d p =>
      match p.2 with
      | .mk nm _ _ => dictSet d nm (.socket giNode p.1))
    []

/-- Argument wiring for a node-group reference node
(`for i, arg in enumerate(args)`: a socket is linked, a non-`None`
constant sets the input's default value). -/
def connect_group_args (nd : Nat) (args : List Value) (s : IState) : IState :=
  (args.enum).foldl
    (fun s p =>
      match p.2 with
      | .socket a b => emit (.link a b nd (.idx p.1)) s
      | .vnone => s
      | v => emit (.setInputDefault nd (.idx p.1) v) s)
    s

/-- `# Connect to the group outputs` loop of `execute_node_group`. -/
def connect_group_outputs (goNode : Nat) (fouts : List (Option Value))
    (s : IState) : IState :=
  (fouts.enum).foldl
    (fun s p =>
      match p.2 with
      | some (.socket a b) => emit (.link a b goNode (.idx p.1)) s
      | some v => emit (.setInputDefault goNode (.idx p.1) v) s
      | none => s)
    s

/-- `for name, value in node_info.props: setattr(node, name, value)`. -/
def set_props (nd : Nat) (props : List (String × Value)) (s : IState) : IState :=
  props.foldl (fun s p => emit (.setProp nd p.1 p.2) s) s

/-- External backend knowledge consumed by `add_builtin`:
`isinstance(node.inputs[i], bpy.types.NodeSocketGeometry)` and
`node.inputs[i].is_multi_input` are properties of the host node type;
they are passed to the interpreter as two oracle functions `geoIn` and
`multiIn` of the node type key and the input index. -/
abbrev BackendOracle := String → Nat → Bool

/-- The list-argument branch of `add_builtin`:  the special
`GeometryNodeJoinGeometry` fan-in case (every element, reversed, resolved
and linked into the named "Geometry" port), the geometry multi-input case
(every element, in order, resolved and linked), the plain geometry case
(`arg[0]` linked when it is a socket — `IndexError` on an empty list), and
the silent drop of a list argument on a non-geometry input (the source has
no branch for it). -/
def connect_builtin_list_arg (geoIn multiIn : BackendOracle)
    (nd : Nat) (key : String) (input_index : Nat)
    (elems : List Value) (s : IState) : Except IErr IState :=
  if key == "GeometryNodeJoinGeometry" then
    .ok (elems.reverse.foldl
      (fun s geo =>
        let geo := resolve_geo s geo
        match get_output_socket s geo with
        | .socket a b => emit (.link a b nd (.named "Geometry")) s
        | _ => s)
      s)
  else if geoIn key input_index then
    if multiIn key input_index then
      .ok (elems.foldl
        (fun s geo =>
          let geo := resolve_geo s geo
          match get_output_socket s geo with
          | .socket a b => emit (.link a b nd (.idx input_index)) s
          | _ => s)
        s)
    else
      match elems with
      | [] => .error .indexError
      | e :: _ =>
        match e with
        | .socket a b => .ok (emit (.link a b nd (.idx input_index)) s)
        | _ => .ok s
  else .ok s

/-- `for i, input_index in enumerate(node_info.inputs)` of `add_builtin`:
`args[i]` raises `IndexError` when the descriptor declares more inputs
than arguments were available; a socket argument is linked, a list
argument goes through `connect_builtin_list_arg`, and a non-`None`
constant sets the input's default value. -/
def connect_builtin_args (geoIn multiIn : BackendOracle) (nd : Nat) (key : String) :
    List Nat → List Value → Nat → IState → Except IErr IState
  | [], _, _, s => .ok s
  | input_index :: rest, args, i, s =>
    match args.get? i with
    | none => .error .indexError
    | some arg =>
      match arg with
      | .socket a b =>
        connect_builtin_args geoIn multiIn nd key rest args (i + 1)
          (emit (.link a b nd (.idx input_index)) s)
      | .vlist elems =>
        match connect_builtin_list_arg geoIn multiIn
            nd key input_index elems s with
        | .error e => .error e
        | .ok s => connect_builtin_args geoIn multiIn nd key rest args (i + 1) s
      | .vnone => connect_builtin_args geoIn multiIn nd key rest args (i + 1) s
      | v =>
        connect_builtin_args geoIn multiIn nd key rest args (i + 1)
          (emit (.setInputDefault nd (.idx input_index) v) s)

/-- `Interpreter.add_builtin`: create the node, apply the fixed property
assignments, connect the arguments; returns the new node's handle. -/
def add_builtin (geoIn multiIn : BackendOracle) (b : NodeInstance)
    (args : List Value) (s : IState) : Except IErr (Nat × IState) :=
  match b with
  | .mk key props inputs _ =>
    let nd := s.next_node
    let s := emit (.newNode s.tree key nd) {s with next_node := nd + 1}
    let s := set_props nd props s
    match connect_builtin_args geoIn multiIn nd key inputs args 0 s with
    | .error e => .error e
    | .ok s => .ok (nd, s)

/-- The tail of `execute_node_group` shared by the cached and uncached
paths: instantiate a reference node (`GeometryNodeGroup` or
`ShaderNodeGroup` depending on the current tree kind), bind it to the
inner tree, wire the arguments, record the node, and push its output(s) —
a single socket for one output, a reversed socket list for several,
nothing for zero. -/
def instantiate_group_node (gn : String) (info : TreeInfo)
    (args : List Value) (s : IState) : IState :=
  let group_key :=
    if s.bl_idname == "GeometryNodeTree" then "GeometryNodeGroup"
    else "ShaderNodeGroup"
  let nd := s.next_node
  let s := emit (.newGroupRefNode s.tree group_key gn nd) {s with next_node := nd + 1}
  let s := connect_group_args nd args s
  let s := {s with nodes := s.nodes ++ [nd]}
  if info.num_outputs == 1 then {s with stack := .socket nd 0 :: s.stack}
  else if info.num_outputs > 1 then
    {s with stack :=
      Value.vlist (((List.range info.num_outputs).reverse).map
        (fun i => Value.socket nd i)) :: s.stack}
  else s

/-- The output-collection suffix of the `CALL_FUNCTION` branch: one output
must be a socket and is pushed alone; several must all be sockets and are
pushed as one reversed list; zero outputs push nothing.  (`.error` is the
`assert isinstance(output, NodeSocket)` failure.) -/
def collect_function_outputs (fouts : List (Option Value)) :
    Except IErr (List Value) :=
  if fouts.length == 1 then
    match fouts with
    | [some (.socket a b)] => .ok [.socket a b]
    | _ => .error (.assertionFailed "function output must be a NodeSocket")
  else if fouts.length > 1 then
    match all_sockets fouts with
    | some socks => .ok [.vlist socks.reverse]
    | none => .error (.assertionFailed "function output must be a NodeSocket")
  else .ok []
where
  all_sockets : List (Option Value) → Option (List Value)
    | [] => some []
    | some (.socket a b) :: rest => (all_sockets rest).map (fun l => .socket a b :: l)
    | _ => none

/-- Every `OpType` value has positive size (termination bookkeeping). -/
theorem opType_sizeOf_pos (t : OpType) : 0 < sizeOf t := by
  cases t <;> simp

mutual

/-- `Interpreter.operation`: execute one operation-stream item.  The
source first intercepts any `ast_defs.ListLiteral` payload — before
dispatching on the operation kind — and only then branches on `op_type`;
the first match arm below realizes exactly that interception order. -/
def operation (geoIn multiIn : BackendOracle) (op : Operation) (s : IState) :
    Except IErr IState :=
  match op with
  | .mk _ (.listLit elements) => eval_list_literal geoIn multiIn elements [] s
  | .mk .PUSH_VALUE op_data => .ok {s with stack := op_data :: s.stack}
  | .mk .CREATE_VAR (.vstr vn) =>
    match s.stack with
    | [] => .error .indexError
    | v :: rest =>
      match chase s.vars (s.vars.length + 1) v with
      | none => .error .chaseDiverged
      | some w =>
        if create_var_ok w then
          .ok {s with stack := rest, vars := dictSet s.vars vn w}
        else
          .error (.assertionFailed
            "Create var expects a node socket or struct or loop index.")
  | .mk .CREATE_VAR _ =>
    .error (.assertionFailed "Variable name should be a string.")
  | .mk .GET_VAR (.vstr vn) =>
    match dictGet s.vars vn with
    | some v => .ok {s with stack := v :: s.stack}
    | none => .error .keyError
  | .mk .GET_VAR _ =>
    .error (.assertionFailed "Variable name should be a string.")
  | .mk .GET_OUTPUT (.vint index) =>
    match s.stack with
    | [] => .error .indexError
    | top :: rest =>
      match top with
      | .vlist struct =>
        match pyIndex struct (-index - 1) with
        | some v => .ok {s with stack := v :: rest}
        | none => .error .indexError
      | _ =>
        .error (.assertionFailed
          "Bug in type checker, GET_OUTPUT only works on structs.")
  | .mk .GET_OUTPUT _ =>
    .error (.assertionFailed "Bug in type checker, index should be int.")
  | .mk .SET_OUTPUT (.pair index value) =>
    match s.nodes.getLast? with
    | some nd => .ok (emit (.setOutputDefault nd index value) s)
    | none => .error .indexError
  | .mk .SET_OUTPUT _ =>
    .error (.assertionFailed "Data should be tuple of index and value")
  | .mk .SET_FUNCTION_OUT (.vint index) =>
    match s.stack with
    | [] => .error .indexError
    | top :: rest =>
      match top with
      | .socket a b =>
        match pyListSet s.function_outputs index (some (.socket a b)) with
        | some fouts => .ok {s with stack := rest, function_outputs := fouts}
        | none => .error .indexError
      | _ => .error (.assertionFailed "function output must be a NodeSocket")
  | .mk .SET_FUNCTION_OUT _ =>
    .error (.assertionFailed "Data should be an index")
  | .mk .SPLIT_STRUCT _ =>
    match s.stack with
    | [] => .error .indexError
    | top :: rest =>
      match top with
      | .vlist struct => .ok {s with stack := struct.reverse ++ rest}
      | _ =>
        .error (.assertionFailed
          "Bug in type checker, GET_OUTPUT only works on structs.")
  | .mk .CALL_FUNCTION (.func (.mk inputs num_outputs body)) =>
    let ar := get_args s.stack inputs.length
    let inner : IState :=
      {s with vars := zipBind inputs ar.1 [],
              function_outputs := List.replicate num_outputs none,
              stack := []}
    match run_body geoIn multiIn body inner with
    | .error e => .error e
    | .ok t =>
      match collect_function_outputs t.function_outputs with
      | .error e => .error e
      | .ok pushed =>
        .ok {t with stack := pushed ++ ar.2,
                    function_outputs := s.function_outputs,
                    vars := s.vars}
  | .mk .CALL_FUNCTION _ =>
    .error (.assertionFailed "Bug in type checker.")
  | .mk .CALL_NODEGROUP (.group g) =>
    let ar := get_args s.stack g.inputs.length
    execute_node_group geoIn multiIn g ar.1 {s with stack := ar.2}
  | .mk .CALL_NODEGROUP _ =>
    .error (.assertionFailed "Bug in type checker.")
  | .mk .CALL_BUILTIN (.builtin b) =>
    let ar := get_args s.stack b.inputs.length
    match add_builtin geoIn multiIn b ar.1 {s with stack := ar.2} with
    | .error e => .error e
    | .ok nds =>
      let nd := nds.1
      let s := nds.2
      let s :=
        match b.outputs with
        | [o] =>
          {s with
            socket_table :=
              dictSet s.socket_table (socketKey nd o) (.socket nd o),
            stack := .socket nd o :: s.stack}
        | outs =>
          if outs.length > 1 then
            {s with stack :=
              Value.vlist (outs.reverse.map (fun o => Value.socket nd o)) :: s.stack}
          else s
      .ok {s with nodes := s.nodes ++ [nd]}
  | .mk .CALL_BUILTIN _ =>
    .error (.assertionFailed "Bug in compiler.")
  | .mk .RENAME_NODE op_data =>
    match s.nodes.getLast? with
    | some nd => .ok (emit (.setLabel nd op_data) s)
    | none => .error .indexError
  | .mk .END_OF_STATEMENT _ => .ok {s with stack := []}
  | .mk .PACK_LIST (.vint count) =>
    let k := count.toNat
    if k ≤ s.stack.length then
      .ok {s with stack :=
        Value.vlist ((s.stack.take k).reverse) :: s.stack.drop k}
    else .error .indexError
  | .mk .PACK_LIST _ =>
    .error (.assertionFailed "PACK_LIST expects an integer count.")
termination_by sizeOf op
decreasing_by
  all_goals simp_wf
  all_goals try omega
  all_goals (have ht := opType_sizeOf_pos ‹OpType›; omega)

/-- The eager inline evaluation of a `ListLiteral` payload: each element is
pushed through a synthesized single-element `PUSH_VALUE` operation and
popped again; the collected values are pushed as one list. -/
def eval_list_literal (geoIn multiIn : BackendOracle) (elements : List Value)
    (acc : List Value) (s : IState) : Except IErr IState :=
  match elements with
  | [] => .ok {s with stack := Value.vlist acc :: s.stack}
  | e :: rest =>
    match operation geoIn multiIn (.mk .PUSH_VALUE e) s with
    | .error err => .error err
    | .ok s' =>
      match s'.stack with
      | [] => .error .indexError
      | v :: st => eval_list_literal geoIn multiIn rest (acc ++ [v]) {s' with stack := st}
termination_by sizeOf elements + 2
decreasing_by
  all_goals simp_wf
  all_goals omega

/-- `for operation in op_data.body: self.operation(operation)`. -/
def run_body (geoIn multiIn : BackendOracle) (body : List Operation) (s : IState) :
    Except IErr IState :=
  match body with
  | [] => .ok s
  | op :: rest =>
    match operation geoIn multiIn op s with
    | .error e => .error e
    | .ok s' => run_body geoIn multiIn rest s'
termination_by sizeOf body
decreasing_by
  all_goals simp_wf
  all_goals omega

/-- `Interpreter.execute_node_group`: reuse the cached inner tree for the
group's name, or on first use create the tree, declare its interface
sockets, create the gateway nodes, run the body with rebound state, wire
the collected outputs to the output gateway, restore the outer state and
cache the tree; in both cases finish by instantiating a reference node. -/
def execute_node_group (geoIn multiIn : BackendOracle) (g : CompiledNodeGroup)
    (args : List Value) (s : IState) : Except IErr IState :=
  match g with
  | .mk gn inputs outputs body =>
    match dictGet s.node_group_trees gn with
    | some info => .ok (instantiate_group_node gn info args s)
    | none =>
      let tr := s.next_tree
      let s := emit (.newGroupTree gn tr) {s with next_tree := tr + 1}
      match new_interface_sockets tr true inputs s with
      | .error e => .error e
      | .ok s =>
        match new_interface_sockets tr false outputs s with
        | .error e => .error e
        | .ok s =>
          let giNode := s.next_node
          let s := emit (.newNode tr "NodeGroupInput" giNode)
            {s with next_node := giNode + 1}
          let goNode := s.next_node
          let s := emit (.newNode tr "NodeGroupOutput" goNode)
            {s with next_node := goNode + 1}
          let inner : IState :=
            {s with tree := tr,
                    vars := bind_group_inputs giNode inputs,
                    function_outputs := List.replicate outputs.length none,
                    stack := []}
          match run_body geoIn multiIn body inner with
          | .error e => .error e
          | .ok t =>
            let t := connect_group_outputs goNode t.function_outputs t
            let info : TreeInfo := ⟨tr, outputs.length⟩
            let s2 : IState :=
              {t with stack := s.stack,
                      function_outputs := s.function_outputs,
                      vars := s.vars,
                      tree := s.tree,
                      node_group_trees := dictSet t.node_group_trees gn info}
            .ok (instantiate_group_node gn info args s2)
termination_by sizeOf g + 2
decreasing_by
  all_goals simp_wf
  all_goals omega

end

/-! ### The parser (`mf_parser.py`) -/

/-- The token kinds of the external scanner, in the ordinal order fixed by
the `rules` table comments of `mf_parser.py` (the table is an array indexed
by `TokenType.value`, and the source checks `len(rules) == EOL.value + 1`). -/
inductive TokenType where
  | LEFT_PAREN | RIGHT_PAREN | LEFT_SQUARE_BRACKET | RIGHT_SQUARE_BRACKET
  | LEFT_BRACE | RIGHT_BRACE | COMMA | DOT | SEMICOLON | EQUAL | MINUS | PLUS
  | PERCENT | SLASH | HAT | GREATER | LESS | COLON | UNDERSCORE | STAR
  | STAR_STAR | ARROW | LESS_EQUAL | GREATER_EQUAL | EQUAL_EQUAL | BANG_EQUAL
  | IDENTIFIER | INT | FLOAT | PYTHON | STRING | GROUP_NAME | OUT | FUNCTION
  | NODEGROUP | LOOP | TRUE | FALSE | NOT | OR | AND | ERROR | EOL
deriving Repr, DecidableEq, Inhabited

/-- A scanner token `{lexeme, token_type, line, col, start, error}`. -/
structure Token where
  lexeme : String
  token_type : TokenType
  line : Nat := 0
  col : Nat := 0
  start : Nat := 0
  error : Option String := Option.none
deriving Repr, DecidableEq

/-- The constant payload of an `ast_defs.Constant` node.  Python floats are
kept opaque as text (their lexeme or the host-eval result); no claim
computes with float values. -/
inductive ConstVal where
  | int (n : Int)
  | float (r : String)
  | str (s : String)
  | bool (b : Bool)
  | none
deriving Repr, DecidableEq

/-- `ast_defs` unary operator kinds (`USub`, `Not`). -/
inductive UnaryKind where
  | usub | notOp
deriving Repr, DecidableEq

/-- An `ast_defs.unaryop` node: the kind plus its operator token. -/
structure UnaryOpT where
  kind : UnaryKind
  tk : Token
deriving Repr, DecidableEq

/-- `ast_defs` binary operator kinds (`Add` .. `Or`). -/
inductive BinKind where
  | add | sub | div | mult | mod | pow | gt | gte | lt | lte | eq | notEq
  | andOp | orOp
deriving Repr, DecidableEq

/-- An `ast_defs.operator` node: the kind plus its operator token. -/
structure OperatorT where
  kind : BinKind
  tk : Token
deriving Repr, DecidableEq

mutual
/-- Modelled from the spec: the expression nodes of `ast_defs.py` (the file
is not part of the sources here) — `Constant`, `Name`, `Vec3`,
`ListLiteral`, `UnaryOp`, `BinOp`, `Call`, `Attribute`, each carrying its
originating token. -/
inductive MFExpr where
  | constant (tk : Token) (value : ConstVal) (dtype : DataType)
  | name (tk : Token) (id : String)
  | vec3 (tk : Token) (x y z : MFExpr)
  | listLiteral (tk : Token) (elements : List MFExpr)
  | unaryOp (tk : Token) (op : UnaryOpT) (operand : MFExpr)
  | binOp (tk : Token) (left : MFExpr) (op : OperatorT) (right : MFExpr)
  | call (tk : Token) (callee : MFExpr) (pos_args : List MFExpr)
      (keyword_args : List MFKeyword)
  | attribute (tk : Token) (value : MFExpr) (attr : String)

/-- `ast_defs.Keyword(token, arg, value)`. -/
inductive MFKeyword where
  | mk (tk : Token) (arg : String) (value : MFExpr)

/-- Modelled from the spec: the statement nodes of `ast_defs.py` —
`Assign`, `Out`, `FunctionDef`, `NodegroupDef`, `Loop`; in Python every
expression is also a statement (subclassing), modelled by `exprStmt`.
Assignment targets are `Name`s or the `_` discard marker (`Option.none`). -/
inductive MFStmt where
  | exprStmt (e : MFExpr)
  | assign (tk : Token) (targets : List (Option (Token × String))) (value : MFExpr)
  | out (tk : Token) (targets : List (Option (Token × String))) (value : MFExpr)
  | functionDef (tk : Token) (fname : String) (args : List MFArg)
      (body : List MFStmt) (returns : List MFArg)
  | nodegroupDef (tk : Token) (fname : String) (args : List MFArg)
      (body : List MFStmt) (returns : List MFArg)
  | loop (tk : Token) (var : Option (Token × String)) (start : Int)
      (stop : Int) (body : List MFStmt)

/-- `ast_defs.arg(token, name, type, default)`. -/
inductive MFArg where
  | mk (tk : Token) (aname : String) (dtype : DataType) (default : Option MFExpr)
end

/-- `ast_defs.Module`. -/
structure Module where
  body : List MFStmt

/-- A recorded diagnostic (`mf_parser.Error`). -/
structure PError where
  token : Token
  message : String

/-- A Python exception escaping the parser: `AssertionError` from a parser
`assert`, any exception propagating out of the embedded host `eval`
boundary, or the recursion fuel of the embedding running out (a modelling
artifact — the entry point supplies enough fuel for the concrete runs the
theorems evaluate). -/
inductive PExn where
  | assertionError (msg : String)
  | hostException (msg : String)
  | outOfFuel
deriving Repr, DecidableEq

/-- Outcome of `float(value)` on the value produced by the embedded
`eval`: a float (kept as text), a `ValueError` (caught by the source), or
any other exception class (uncaught — e.g. `TypeError` from `float(1j)`). -/
inductive FloatConv where
  | ok (r : String)
  | valueError (msg : String)
  | otherError (msg : String)
deriving Repr, DecidableEq

/-- The host-Python boundary of the `python` parse rule:
`eval(expression, vars(math))` either returns a value (whose `float`
conversion is described by `FloatConv`), raises one of the four caught
classes (`SyntaxError`, `NameError`, `TypeError`, `ZeroDivisionError`), or
raises any other exception class — e.g. `math.sqrt(-1)` raises
`ValueError`, which the source's `except` clause does not list. -/
inductive PyEvalResult where
  | val (conv : FloatConv)
  | caught (msg : String)
  | uncaught (msg : String)
deriving Repr, DecidableEq

/-- The embedded-`eval` oracle: what the host evaluates each expression
text to.  External boundary (Python's `eval` over the `math` namespace). -/
abbrev PyEval := String → PyEvalResult

namespace Parser

/-- The mutable state of one `Parser` instance: the remaining scanner
stream (`tokens`; the scanner is external and is modelled as a token list
that yields end-of-input `EOL` tokens forever once exhausted), the
pushback `token_buffer`, and the source's `current`, `previous`,
`had_error`, `panic_mode`, `curr_node` and `errors` fields. -/
structure PState where
  tokens : List Token
  token_buffer : List Token
  current : Token
  previous : Token
  had_error : Bool
  panic_mode : Bool
  curr_node : Option MFStmt
  errors : List PError

/-- The end-of-input marker the scanner produces once the source text is
exhausted. -/
def eol_token : Token := ⟨"", .EOL, 0, 0, 0, Option.none⟩

/-- `Parser.__init__`: scan the first token; `previous` starts equal to
`current`. -/
def mk_state (toks : List Token) : PState :=
  match toks with
  | [] => ⟨[], [], eol_token, eol_token, false, false, Option.none, []⟩
  | t :: rest => ⟨rest, [], t, t, false, false, Option.none, []⟩

/-- `self.scanner.scan_token()`. -/
def scan_token (s : PState) : Token × PState :=
  match s.tokens with
  | [] => (eol_token, s)
  | t :: rest => (t, {s with tokens := rest})

/-- The token fetch inside `advance`: pop the pushback buffer (Python
`list.pop()` takes the last element) or scan. -/
def next_token (s : PState) : Token × PState :=
  match s.token_buffer.getLast? with
  | some t => (t, {s with token_buffer := s.token_buffer.dropLast})
  | Option.none => scan_token s

/-- `Parser.error_at`: a no-op while in panic mode; otherwise enter panic
mode, record the formatted diagnostic and set `had_error`. -/
def error_at (tok : Token) (message : String) (s : PState) : PState :=
  if s.panic_mode then s
  else
    let e0 := "line:" ++ toString tok.line ++ ":" ++ toString tok.col ++ ": Error"
    let e1 :=
      if tok.token_type == .EOL then e0 ++ " at end:"
      else if tok.token_type == .ERROR then e0
      else e0 ++ " at \"" ++ tok.lexeme ++ "\":"
    {s with panic_mode := true,
            errors := s.errors ++ [⟨tok, e1 ++ " " ++ message⟩],
            had_error := true}

/-- `Parser.error_at_current`. -/
def error_at_current (message : String) (s : PState) : PState :=
  error_at s.current message s

/-- `Parser.error` (reports at `previous`). -/
def error (message : String) (s : PState) : PState :=
  error_at s.previous message s

/-- The `while True` fetch loop of `advance`: keep consuming `ERROR`
tokens, reporting each one (with a rebuilt token, exactly as the source
does), until a non-`ERROR` token becomes `current`.  The fuel is bounded
by the finite token supply; once the stream is exhausted the synthesized
`EOL` token stops the loop, so the `0` case is unreachable from
`advance`. -/
def advance_loop : Nat → PState → PState
  | 0, s => s
  | fuel + 1, s =>
    let ts := next_token s
    let t := ts.1
    let s := ts.2
    if t.token_type == .ERROR then
      advance_loop fuel
        (error_at ⟨t.lexeme, .ERROR, t.line, t.col, t.start, Option.none⟩
          (t.error.getD "") s)
    else {s with current := t}

/-- `Parser.advance`. -/
def advance (s : PState) : PState :=
  advance_loop (s.token_buffer.length + s.tokens.length + 1)
    {s with previous := s.current}

/-- `Parser.check`. -/
def check (tt : TokenType) (s : PState) : Bool :=
  s.current.token_type == tt

/-- `Parser.match`  (`match` is reserved in Lean). -/
def matchT (tt : TokenType) (s : PState) : Bool × PState :=
  if check tt s then (true, advance s) else (false, s)

/-- `Parser.consume`. -/
def consume (tt : TokenType) (message : String) (s : PState) : PState :=
  if check tt s then advance s else error_at_current message s

/-- `Parser.add_tokens` (unused by `parse`; kept for completeness — the
source indexes `tokens[0]`, so the empty case cannot arise there). -/
def add_tokens (toks : List Token) (s : PState) : PState :=
  match toks with
  | [] => s
  | first :: rest =>
    {s with token_buffer := (s.token_buffer ++ [s.current]) ++ rest.reverse,
            current := first}

/-- The `Precedence` IntEnum ordinals. -/
def precNONE : Nat := 0
def precASSIGNMENT : Nat := 1
def precOR : Nat := 2
def precAND : Nat := 3
def precNOT : Nat := 4
def precCOMPARISON : Nat := 5
def precTERM : Nat := 6
def precFACTOR : Nat := 7
def precUNARY : Nat := 8
def precEXPONENT : Nat := 9
def precATTRIBUTE : Nat := 10
def precCALL : Nat := 11
def precPRIMARY : Nat := 12

/-- The prefix handlers appearing in the `rules` table. -/
inductive PrefixFn where
  | grouping | make_vector | default' | identifier | make_int | make_float
  | python | string | group_name | boolean | unary
deriving Repr, DecidableEq

/-- The infix handlers appearing in the `rules` table. -/
inductive InfixFn where
  | call | dot | binary
deriving Repr, DecidableEq

/-- One `ParseRule{prefix, infix, precedence}`. -/
structure ParseRule where
  prefixFn : Option PrefixFn
  infixFn : Option InfixFn
  precedence : Nat

/-- The `rules` table, one entry per token kind in ordinal order (the
source stores it as a list indexed by `TokenType.value` and asserts it
covers every kind). -/
def rules : TokenType → ParseRule
  | .LEFT_PAREN => ⟨some .grouping, some .call, precCALL⟩
  | .RIGHT_PAREN => ⟨Option.none, Option.none, precNONE⟩
  | .LEFT_SQUARE_BRACKET => ⟨Option.none, Option.none, precNONE⟩
  | .RIGHT_SQUARE_BRACKET => ⟨Option.none, Option.none, precNONE⟩
  | .LEFT_BRACE => ⟨some .make_vector, Option.none, precNONE⟩
  | .RIGHT_BRACE => ⟨Option.none, Option.none, precNONE⟩
  | .COMMA => ⟨Option.none, Option.none, precNONE⟩
  | .DOT => ⟨Option.none, some .dot, precATTRIBUTE⟩
  | .SEMICOLON => ⟨Option.none, Option.none, precNONE⟩
  | .EQUAL => ⟨Option.none, Option.none, precNONE⟩
  | .MINUS => ⟨some .unary, some .binary, precTERM⟩
  | .PLUS => ⟨Option.none, some .binary, precTERM⟩
  | .PERCENT => ⟨Option.none, some .binary, precFACTOR⟩
  | .SLASH => ⟨Option.none, some .binary, precFACTOR⟩
  | .HAT => ⟨Option.none, some .binary, precEXPONENT⟩
  | .GREATER => ⟨Option.none, some .binary, precCOMPARISON⟩
  | .LESS => ⟨Option.none, some .binary, precCOMPARISON⟩
  | .COLON => ⟨Option.none, Option.none, precNONE⟩
  | .UNDERSCORE => ⟨some .default', Option.none, precNONE⟩
  | .STAR => ⟨Option.none, some .binary, precFACTOR⟩
  | .STAR_STAR => ⟨Option.none, some .binary, precEXPONENT⟩
  | .ARROW => ⟨Option.none, Option.none, precNONE⟩
  | .LESS_EQUAL => ⟨Option.none, some .binary, precCOMPARISON⟩
  | .GREATER_EQUAL => ⟨Option.none, some .binary, precCOMPARISON⟩
  | .EQUAL_EQUAL => ⟨Option.none, some .binary, precCOMPARISON⟩
  | .BANG_EQUAL => ⟨Option.none, some .binary, precCOMPARISON⟩
  | .IDENTIFIER => ⟨some .identifier, Option.none, precNONE⟩
  | .INT => ⟨some .make_int, Option.none, precNONE⟩
  | .FLOAT => ⟨some .make_float, Option.none, precNONE⟩
  | .PYTHON => ⟨some .python, Option.none, precNONE⟩
  | .STRING => ⟨some .string, Option.none, precNONE⟩
  | .GROUP_NAME => ⟨some .group_name, Option.none, precNONE⟩
  | .OUT => ⟨Option.none, Option.none, precNONE⟩
  | .FUNCTION => ⟨Option.none, Option.none, precNONE⟩
  | .NODEGROUP => ⟨Option.none, Option.none, precNONE⟩
  | .LOOP => ⟨Option.none, Option.none, precNONE⟩
  | .TRUE => ⟨some .boolean, Option.none, precNONE⟩
  | .FALSE => ⟨some .boolean, Option.none, precNONE⟩
  | .NOT => ⟨some .unary, Option.none, precNOT⟩
  | .OR => ⟨Option.none, some .binary, precOR⟩
  | .AND => ⟨Option.none, some .binary, precAND⟩
  | .ERROR => ⟨Option.none, Option.none, precNONE⟩
  | .EOL => ⟨Option.none, Option.none, precNONE⟩

/-- `Parser.get_rule`. -/
def get_rule (tt : TokenType) : ParseRule := rules tt

/-- `int(lexeme)`; the scanner only produces `INT` tokens with digit
lexemes, so the conversion cannot fail there (modelled totally). -/
def int_of_lexeme (l : String) : Int := (l.toInt?).getD 0

/-- Python `lexeme[1:-1]` (string literals) / used with `drop 2` for
group-name lexemes. -/
def strip_quotes (l : String) : String := (l.drop 1).dropRight 1

/-- Coerce an `expression()` result to an expression.  The trailing
assertion of `parse_precedence` guarantees any non-`None` result at the
call sites is an expression; the failure branch is kept explicit rather
than silently coercing. -/
def as_expr : Option MFStmt → Except PExn (Option MFExpr)
  | Option.none => .ok Option.none
  | some (.exprStmt e) => .ok (some e)
  | some _ => .error (.assertionError "expression result is not an expression")

/-- The `make_int` parse rule. -/
def make_int (can_assign : Bool) (s : PState) : PState :=
  let token := s.previous
  let c : MFStmt := .exprStmt (.constant token (.int (int_of_lexeme token.lexeme)) DataType.INT)
  {s with curr_node := some c}

/-- The `make_float` parse rule (`float(lexeme)`, kept as text). -/
def make_float (can_assign : Bool) (s : PState) : PState :=
  let token := s.previous
  let c : MFStmt := .exprStmt (.constant token (.float token.lexeme) DataType.FLOAT)
  {s with curr_node := some c}

/-- The `default` parse rule (the `_` token). -/
def default' (can_assign : Bool) (s : PState) : PState :=
  let c : MFStmt := .exprStmt (.constant s.previous ConstVal.none DataType.DEFAULT)
  {s with curr_node := some c}

/-- The `string` parse rule. -/
def string (can_assign : Bool) (s : PState) : PState :=
  let token := s.previous
  let c : MFStmt := .exprStmt (.constant token (.str (strip_quotes token.lexeme)) DataType.STRING)
  {s with curr_node := some c}

/-- The `boolean` parse rule. -/
def boolean (can_assign : Bool) (s : PState) : PState :=
  let token := s.previous
  let c : MFStmt := .exprStmt (.constant token (.bool (token.lexeme == "true")) DataType.BOOL)
  {s with curr_node := some c}

/-- The `python` parse rule: evaluate the embedded host expression at
parse time.  `eval` raising one of the four caught classes or `float`
raising `ValueError` becomes a diagnostic and folds to `0.0`; any other
exception class propagates out of the parser. -/
def python (pe : PyEval) (can_assign : Bool) (s : PState) : Except PExn PState :=
  let token := s.previous
  let exprText := token.lexeme.drop 1
  match pe exprText with
  | .uncaught msg => .error (.hostException msg)
  | .caught msg =>
    let s := error ("Invalid python syntax: " ++ msg ++ ".") s
    let c : MFStmt := .exprStmt (.constant token (.float "0.0") DataType.FLOAT)
    .ok {s with curr_node := some c}
  | .val (.ok r) =>
    let c : MFStmt := .exprStmt (.constant token (.float r) DataType.FLOAT)
    .ok {s with curr_node := some c}
  | .val (.valueError msg) =>
    let s := error ("Expected result of python expression to be a number: " ++ msg ++ ".") s
    let c : MFStmt := .exprStmt (.constant token (.float "0.0") DataType.FLOAT)
    .ok {s with curr_node := some c}
  | .val (.otherError msg) => .error (.hostException msg)

/-- The `dot` infix rule. -/
def dot (can_assign : Bool) (s : PState) : Except PExn PState :=
  let token := s.previous
  let s := consume .IDENTIFIER "Expect output name or function call after \".\"." s
  let identifier_token := s.previous
  match s.curr_node with
  | Option.none => .ok s
  | some (.exprStmt ve) =>
    let c : MFStmt := .exprStmt (.attribute token ve identifier_token.lexeme)
    .ok {s with curr_node := some c}
  | some _ => .error (.assertionError "attribute base is not an expression")

/-- The operator classification of `binary` (`None` is its trailing
`assert False, "Unreachable code"`). -/
def bin_kind_of : TokenType → Option BinKind
  | .PLUS => some .add
  | .MINUS => some .sub
  | .SLASH => some .div
  | .STAR => some .mult
  | .PERCENT => some .mod
  | .STAR_STAR => some .pow
  | .HAT => some .pow
  | .GREATER => some .gt
  | .GREATER_EQUAL => some .gte
  | .LESS => some .lt
  | .LESS_EQUAL => some .lte
  | .EQUAL_EQUAL => some .eq
  | .BANG_EQUAL => some .notEq
  | .AND => some .andOp
  | .OR => some .orOp
  | _ => Option.none

/-- Modelled from the spec: the `string_to_data_type` mapping of
`backends/type_defs.py` (user-facing data type names). -/
def string_to_data_type : String → Option DataType
  | "bool" => some .BOOL
  | "int" => some .INT
  | "float" => some .FLOAT
  | "rgba" => some .RGBA
  | "vec3" => some .VEC3
  | "geometry" => some .GEOMETRY
  | "string" => some .STRING
  | "shader" => some .SHADER
  | "object" => some .OBJECT
  | "image" => some .IMAGE
  | "collection" => some .COLLECTION
  | "texture" => some .TEXTURE
  | "material" => some .MATERIAL
  | "rotation" => some .ROTATION
  | _ => Option.none

/-- `Parser.parse_type`. -/
def parse_type (s : PState) : DataType × PState :=
  let s := consume .COLON "Expected type after argument name." s
  let m := matchT .IDENTIFIER s
  if m.1 then
    match string_to_data_type m.2.previous.lexeme with
    | some dt => (dt, m.2)
    | Option.none =>
      (DataType.UNKNOWN, error ("Invalid data type: " ++ m.2.previous.lexeme ++ ".") m.2)
  else (DataType.UNKNOWN, error "Expected a data type" m.2)

/-- `Parser.parse_int` (an optionally negative integer literal). -/
def parse_int (s : PState) : Int × PState :=
  let m := matchT .MINUS s
  if m.1 then
    let s := consume .INT "Expected an integer" m.2
    if s.panic_mode then (0, s) else (-(int_of_lexeme s.previous.lexeme), s)
  else
    let s := consume .INT "Expected an integer" m.2
    if s.panic_mode then (0, s) else (int_of_lexeme s.previous.lexeme, s)

/-- The target-collection loop of `out`
(`while not self.match(EQUAL): ...`). -/
def out_targets_loop :
    Nat → List (Option (Token × String)) → PState →
      List (Option (Token × String)) × PState
  | 0, acc, s => (acc, s)
  | fuel + 1, acc, s =>
    let m := matchT .EQUAL s
    if m.1 then (acc, m.2)
    else
      let step :=
        let mi := matchT .IDENTIFIER m.2
        if mi.1 then (acc ++ [some (mi.2.previous, mi.2.previous.lexeme)], mi.2)
        else
          let mu := matchT .UNDERSCORE mi.2
          if mu.1 then (acc ++ [Option.none], mu.2)
          else (acc, error_at_current "Expect variable name or \"_\" after \"out\"." mu.2)
      let mc := matchT .COMMA step.2
      if mc.1 then out_targets_loop fuel step.1 mc.2
      else (step.1, consume .EQUAL "Expected \"=\". " mc.2)

/-- The target-collection loop of the `identifier` assignment path
(`while not self.check(EQUAL): ...`). -/
def id_targets_loop :
    Nat → List (Option (Token × String)) → PState →
      List (Option (Token × String)) × PState
  | 0, acc, s => (acc, s)
  | fuel + 1, acc, s =>
    if check .EQUAL s then (acc, s)
    else
      let step :=
        let mi := matchT .IDENTIFIER s
        if mi.1 then (acc ++ [some (mi.2.previous, mi.2.previous.lexeme)], mi.2)
        else
          let mu := matchT .UNDERSCORE mi.2
          if mu.1 then (acc ++ [Option.none], mu.2)
          else (acc, error_at_current "Expect variable name or \"_\" separated by \",\". " mu.2)
      let mc := matchT .COMMA step.2
      if mc.1 then id_targets_loop fuel step.1 mc.2 else (step.1, mc.2)

/-- `Parser.synchronize`: clear panic mode (at entry — not at the
synchronization point), then skip tokens until the previous token is an
end-of-line marker or semicolon or the lookahead starts a top-level
declaration. -/
def sync_loop : Nat → PState → PState
  | 0, s => s
  | fuel + 1, s =>
    if s.previous.token_type == .EOL then s
    else if s.previous.token_type == .SEMICOLON then s
    else if s.current.token_type == .OUT ∨ s.current.token_type == .FUNCTION
        ∨ s.current.token_type == .NODEGROUP then s
    else sync_loop fuel (advance s)

def synchronize (s : PState) : PState :=
  sync_loop (s.token_buffer.length + s.tokens.length + 2)
    {s with panic_mode := false}

/-- The `join_geometry` syntactic normalization applied by `call` and
`group_name`: more than one positional argument to that callee collapses
into a single list literal. -/
def join_geometry_rewrite (tk : Token) (callee : MFExpr)
    (pos_args : List MFExpr) : List MFExpr :=
  match callee with
  | .name _ id =>
    if id == "join_geometry" && pos_args.length > 1 then [.listLiteral tk pos_args]
    else pos_args
  | _ => pos_args


mutual

/-- `Parser.parse`: collect declarations until the end-of-line marker,
re-synchronizing after any panic. -/
def parse_loop (pe : PyEval) :
    Nat → List MFStmt → PState → Except PExn (List MFStmt × PState)
  | 0, _, _ => .error .outOfFuel
  | fuel + 1, acc, s =>
    let m := matchT .EOL s
    if m.1 then .ok (acc, m.2)
    else
      match declaration pe fuel m.2 with
      | .error e => .error e
      | .ok (st, s) =>
        let acc := match st with | some v => acc ++ [v] | Option.none => acc
        let s := if s.panic_mode then synchronize s else s
        parse_loop pe fuel acc s

/-- `Parser.declaration`. -/
def declaration (pe : PyEval) :
    Nat → PState → Except PExn (Option MFStmt × PState)
  | 0, _ => .error .outOfFuel
  | fuel + 1, s =>
    let m := matchT .OUT s
    if m.1 then out pe fuel m.2
    else
      let m2 := matchT .FUNCTION m.2
      if m2.1 then
        match function_def pe fuel m2.2 with
        | .error e => .error e
        | .ok (f, s) => .ok (some f, s)
      else
        let m3 := matchT .NODEGROUP m2.2
        if m3.1 then
          match nodegroup_def pe fuel m3.2 with
          | .error e => .error e
          | .ok (f, s) => .ok (some f, s)
        else
          let m4 := matchT .LOOP m3.2
          if m4.1 then
            match loop pe fuel m4.2 with
            | .error e => .error e
            | .ok (l, s) => .ok (some l, s)
          else statement pe fuel m4.2

/-- `Parser.statement`: assignment is a valid statement; consume an
optional trailing semicolon and reset `curr_node`. -/
def statement (pe : PyEval) :
    Nat → PState → Except PExn (Option MFStmt × PState)
  | 0, _ => .error .outOfFuel
  | fuel + 1, s =>
    match parse_precedence pe fuel precASSIGNMENT false s with
    | .error e => .error e
    | .ok (node, s) =>
      let s := (matchT .SEMICOLON s).2
      .ok (node, {s with curr_node := Option.none})

/-- `Parser.parse_precedence`: the precedence-climbing core.  Consume one
token, run its prefix rule, then fold infix rules while the lookahead's
table precedence is at least `prec`; finally perform the
invalid-assignment check, the empty-expression check and the trailing
expression assertion, and return `curr_node`. -/
def parse_precedence (pe : PyEval) :
    Nat → Nat → Bool → PState → Except PExn (Option MFStmt × PState)
  | 0, _, _, _ => .error .outOfFuel
  | fuel + 1, prec, skip_advance, s =>
    let s := if skip_advance then s else advance s
    match (get_rule s.previous.token_type).prefixFn with
    | Option.none => .ok (Option.none, error "Expect expression." s)
    | some pf =>
      let can_assign := decide (prec ≤ precASSIGNMENT)
      match run_prefix pe fuel pf can_assign s with
      | .error e => .error e
      | .ok s =>
        match infix_loop pe fuel prec can_assign s with
        | .error e => .error e
        | .ok s =>
          let s :=
            if can_assign then
              let m := matchT .EQUAL s
              if m.1 then error "Invalid assignment target." m.2 else m.2
            else s
          let s :=
            if s.curr_node.isNone then error "Expected expression with a value." s
            else s
          match s.curr_node, can_assign with
          | some (.exprStmt e), false => .ok (some (.exprStmt e), s)
          | some _, false =>
            .error (.assertionError "parse_precedence result is not an expression")
          | r, _ => .ok (r, s)

/-- The infix `while` loop of `parse_precedence`.  A rule with precedence
above `NONE` always carries an infix handler, so the `None` branch —
Python would call `None` and raise `TypeError` — is unreachable but kept
explicit. -/
def infix_loop (pe : PyEval) :
    Nat → Nat → Bool → PState → Except PExn PState
  | 0, _, _, _ => .error .outOfFuel
  | fuel + 1, prec, can_assign, s =>
    if prec ≤ (get_rule s.current.token_type).precedence then
      let s := advance s
      match (get_rule s.previous.token_type).infixFn with
      | Option.none => .error (.hostException "TypeError: NoneType object is not callable")
      | some inf =>
        match run_infix pe fuel inf can_assign s with
        | .error e => .error e
        | .ok s => infix_loop pe fuel prec can_assign s
    else .ok s

/-- Dispatch on a prefix rule (the function values stored in `rules`). -/
def run_prefix (pe : PyEval) :
    Nat → PrefixFn → Bool → PState → Except PExn PState
  | 0, _, _, _ => .error .outOfFuel
  | fuel + 1, pf, can_assign, s =>
    match pf with
    | .grouping => grouping pe fuel can_assign s
    | .make_vector => make_vector pe fuel can_assign s
    | .default' => .ok (default' can_assign s)
    | .identifier => identifier pe fuel can_assign s
    | .make_int => .ok (make_int can_assign s)
    | .make_float => .ok (make_float can_assign s)
    | .python => python pe can_assign s
    | .string => .ok (string can_assign s)
    | .group_name => group_name pe fuel can_assign s
    | .boolean => .ok (boolean can_assign s)
    | .unary => unary pe fuel can_assign s

/-- Dispatch on an infix rule. -/
def run_infix (pe : PyEval) :
    Nat → InfixFn → Bool → PState → Except PExn PState
  | 0, _, _, _ => .error .outOfFuel
  | fuel + 1, inf, can_assign, s =>
    match inf with
    | .call => call pe fuel can_assign s
    | .dot => dot can_assign s
    | .binary => binary pe fuel can_assign s

/-- `Parser.expression`: assignment is not a valid expression. -/
def expression (pe : PyEval) :
    Nat → PState → Except PExn (Option MFStmt × PState)
  | 0, _ => .error .outOfFuel
  | fuel + 1, s => parse_precedence pe fuel precOR false s

/-- The `grouping` parse rule. -/
def grouping (pe : PyEval) :
    Nat → Bool → PState → Except PExn PState
  | 0, _, _ => .error .outOfFuel
  | fuel + 1, can_assign, s =>
    match expression pe fuel s with
    | .error e => .error e
    | .ok (v, s) =>
      .ok (consume .RIGHT_PAREN "Expect closing \")\" after expression."
        {s with curr_node := v})

/-- The `unary` parse rule.  The operand comes from
`parse_precedence(UNARY)`, whose trailing assertion guarantees it is an
expression; the non-expression branch is unreachable. -/
def unary (pe : PyEval) :
    Nat → Bool → PState → Except PExn PState
  | 0, _, _ => .error .outOfFuel
  | fuel + 1, can_assign, s =>
    let operator_token := s.previous
    match parse_precedence pe fuel precUNARY false s with
    | .error e => .error e
    | .ok (operand, s) =>
      match operand with
      | Option.none => .ok s
      | some (.exprStmt oe) =>
        match operator_token.token_type with
        | .MINUS =>
          let c : MFStmt := .exprStmt (.unaryOp operator_token ⟨.usub, operator_token⟩ oe)
          .ok {s with curr_node := some c}
        | .NOT =>
          let c : MFStmt := .exprStmt (.unaryOp operator_token ⟨.notOp, operator_token⟩ oe)
          .ok {s with curr_node := some c}
        | _ => .error (.assertionError "Unreachable code")
      | some _ => .error (.assertionError "unary operand is not an expression")

/-- The `binary` parse rule: parse the right operand at the operator's own
table precedence plus one, then build the `BinOp` node. -/
def binary (pe : PyEval) :
    Nat → Bool → PState → Except PExn PState
  | 0, _, _ => .error .outOfFuel
  | fuel + 1, can_assign, s =>
    let operator_token := s.previous
    let operator_type := operator_token.token_type
    let left := s.curr_node
    let rule := get_rule operator_type
    match parse_precedence pe fuel (rule.precedence + 1) false s with
    | .error e => .error e
    | .ok (right, s) =>
      match left, right with
      | some l, some r =>
        match l, r with
        | .exprStmt le, .exprStmt re =>
          match bin_kind_of operator_type with
          | some k =>
            let c : MFStmt := .exprStmt (.binOp operator_token le ⟨k, operator_token⟩ re)
            .ok {s with curr_node := some c}
          | Option.none => .error (.assertionError "Unreachable code")
        | _, _ => .error (.assertionError "binary operand is not an expression")
      | _, _ => .ok s

/-- The `identifier` parse rule: at assignment level, an identifier
followed by `=` (or a `,`-separated target list ending in `=`) becomes an
`Assign`; otherwise it is a `Name`.  The `check(EQUAL) or match(COMMA)`
short-circuit of the source is preserved. -/
def identifier (pe : PyEval) :
    Nat → Bool → PState → Except PExn PState
  | 0, _, _ => .error .outOfFuel
  | fuel + 1, can_assign, s =>
    let identifier_token := s.previous
    let nm := identifier_token.lexeme
    if can_assign then
      if check .EQUAL s then identifier_assign pe fuel identifier_token s
      else
        let mc := matchT .COMMA s
        if mc.1 then identifier_assign pe fuel identifier_token mc.2
        else
          let c : MFStmt := .exprStmt (.name identifier_token nm)
          .ok {mc.2 with curr_node := some c}
    else
      let c : MFStmt := .exprStmt (.name identifier_token nm)
      .ok {s with curr_node := some c}

/-- The assignment path of `identifier`: collect the remaining targets,
consume `=`, parse the value and build the `Assign` node (on a `None`
value the handler just returns, exactly as the source). -/
def identifier_assign (pe : PyEval) :
    Nat → Token → PState → Except PExn PState
  | 0, _, _ => .error .outOfFuel
  | fuel + 1, identifier_token, s =>
    let tl := id_targets_loop (s.token_buffer.length + s.tokens.length + 2)
      [some (identifier_token, identifier_token.lexeme)] s
    let targets := tl.1
    let s := consume .EQUAL "Expect \"=\"" tl.2
    let equal_token := s.previous
    match expression pe fuel s with
    | .error e => .error e
    | .ok (v, s) =>
      match v with
      | Option.none => .ok s
      | some (.exprStmt ve) =>
        let c : MFStmt := .assign equal_token targets ve
        .ok {s with curr_node := some c}
      | some _ => .error (.assertionError "assignment value is not an expression")

/-- The `make_vector` parse rule (`{x, y, z}` literals; missing components
default to a `DEFAULT`-typed zero constant). -/
def make_vector (pe : PyEval) :
    Nat → Bool → PState → Except PExn PState
  | 0, _, _ => .error .outOfFuel
  | fuel + 1, can_assign, s =>
    let bracket_token := s.previous
    let zero : MFExpr := .constant bracket_token (.int 0) DataType.DEFAULT
    let m := matchT .RIGHT_BRACE s
    if m.1 then
      let c : MFStmt := .exprStmt (.vec3 bracket_token zero zero zero)
      .ok {m.2 with curr_node := some c}
    else
      match expression pe fuel m.2 with
      | .error e => .error e
      | .ok (xv, s) =>
        match as_expr xv with
        | .error e => .error e
        | .ok xq =>
          let mc := matchT .COMMA s
          match (if mc.1 then
                  (expression pe fuel mc.2).bind
                    (fun p => (as_expr p.1).map (fun q => (q, p.2)))
                 else .ok (some zero, mc.2)) with
          | .error e => .error e
          | .ok (yq, s) =>
            let mc2 := matchT .COMMA s
            match (if mc2.1 then
                    (expression pe fuel mc2.2).bind
                      (fun p => (as_expr p.1).map (fun q => (q, p.2)))
                   else .ok (some zero, mc2.2)) with
            | .error e => .error e
            | .ok (zq, s) =>
              let s := consume .RIGHT_BRACE "Expect closing \"\x7d\"." s
              match xq, yq, zq with
              | some xe, some ye, some ze =>
                let c : MFStmt := .exprStmt (.vec3 bracket_token xe ye ze)
                .ok {s with curr_node := some c}
              | _, _, _ => .ok s

/-- The `group_name` parse rule: a delimited group-reference lexeme parsed
directly into a `Call` with a synthesized `Name` callee (the lexeme's
fixed-width delimiters stripped), with the `join_geometry` rewrite. -/
def group_name (pe : PyEval) :
    Nat → Bool → PState → Except PExn PState
  | 0, _, _ => .error .outOfFuel
  | fuel + 1, can_assign, s =>
    let token := s.previous
    let callee : MFExpr := .name token ((token.lexeme.drop 2).dropRight 1)
    let s := consume .LEFT_PAREN "Expect \"(\" after node group name." s
    match call_args pe fuel s with
    | .error e => .error e
    | .ok (ret, s) =>
      match ret with
      | Option.none => .ok s
      | some args =>
        let pos_args := join_geometry_rewrite token callee args.1
        let c : MFStmt := .exprStmt (.call token callee pos_args args.2)
        .ok {s with curr_node := some c}

/-- The `call` infix rule.  `assert func is not None, "Error in the
parser"` is modelled by the `assertionError` branch — it is reachable on
malformed input such as `()()`. -/
def call (pe : PyEval) :
    Nat → Bool → PState → Except PExn PState
  | 0, _, _ => .error .outOfFuel
  | fuel + 1, can_assign, s =>
    let token := s.previous
    match s.curr_node with
    | Option.none => .error (.assertionError "Error in the parser")
    | some fstmt =>
      match fstmt with
      | .exprStmt fe =>
        match fe with
        | .name _ _ | .attribute _ _ _ =>
          match call_args pe fuel s with
          | .error e => .error e
          | .ok (ret, s) =>
            match ret with
            | Option.none => .ok s
            | some args =>
              let pos_args := join_geometry_rewrite token fe args.1
              let c : MFStmt := .exprStmt (.call token fe pos_args args.2)
              .ok {s with curr_node := some c}
        | _ => .ok (error "Expected function name to call." s)
      | _ => .ok (error "Expected function name to call." s)

/-- `Parser.call_args`: positional and keyword arguments between
parentheses. -/
def call_args (pe : PyEval) :
    Nat → PState →
      Except PExn (Option (List MFExpr × List MFKeyword) × PState)
  | 0, _ => .error .outOfFuel
  | fuel + 1, s =>
    if check .RIGHT_PAREN s then
      .ok (some ([], []), consume .RIGHT_PAREN "Expect \")\" after arguments." s)
    else ca_loop pe fuel [] [] s

/-- The argument loop of `call_args`
(`while match(COMMA) or previous is LEFT_PAREN`). -/
def ca_loop (pe : PyEval) :
    Nat → List MFExpr → List MFKeyword → PState →
      Except PExn (Option (List MFExpr × List MFKeyword) × PState)
  | 0, _, _, _ => .error .outOfFuel
  | fuel + 1, pos, kw, s =>
    let mc := matchT .COMMA s
    if mc.1 ∨ mc.2.previous.token_type == .LEFT_PAREN then
      let s := mc.2
      let mi := matchT .IDENTIFIER s
      if mi.1 then
        if check .EQUAL mi.2 then
          let arg_token := mi.2.previous
          let s := advance mi.2
          match expression pe fuel s with
          | .error e => .error e
          | .ok (v, s) =>
            match v with
            | Option.none => .ok (Option.none, s)
            | some (.exprStmt ve) =>
              match kw_loop pe fuel (kw ++ [.mk arg_token arg_token.lexeme ve]) s with
              | .error e => .error e
              | .ok (r, s) =>
                match r with
                | Option.none => .ok (Option.none, s)
                | some kw => ca_loop pe fuel pos kw s
            | some _ =>
              .error (.assertionError "keyword argument value is not an expression")
        else
          match parse_precedence pe fuel precOR true mi.2 with
          | .error e => .error e
          | .ok (v, s) =>
            match v with
            | Option.none => .ok (Option.none, s)
            | some (.exprStmt ve) => ca_loop pe fuel (pos ++ [ve]) kw s
            | some _ =>
              .error (.assertionError "positional argument is not an expression")
      else
        match expression pe fuel mi.2 with
        | .error e => .error e
        | .ok (v, s) =>
          match v with
          | Option.none => .ok (Option.none, s)
          | some (.exprStmt ve) => ca_loop pe fuel (pos ++ [ve]) kw s
          | some _ =>
            .error (.assertionError "positional argument is not an expression")
    else
      .ok (some (pos, kw), consume .RIGHT_PAREN "Expect \")\" after arguments." mc.2)

/-- The all-keyword tail loop of `call_args` (after the first keyword
argument, every further argument must be a keyword argument). -/
def kw_loop (pe : PyEval) :
    Nat → List MFKeyword → PState →
      Except PExn (Option (List MFKeyword) × PState)
  | 0, _, _ => .error .outOfFuel
  | fuel + 1, kw, s =>
    let mc := matchT .COMMA s
    if mc.1 then
      let s := consume .IDENTIFIER
        "No positional arguments allowed after keyword argument." mc.2
      let arg_token := s.previous
      let s := consume .EQUAL "Expect \"=\" after keyword." s
      match expression pe fuel s with
      | .error e => .error e
      | .ok (v, s) =>
        match v with
        | Option.none => .ok (Option.none, s)
        | some (.exprStmt ve) =>
          kw_loop pe fuel (kw ++ [.mk arg_token arg_token.lexeme ve]) s
        | some _ =>
          .error (.assertionError "keyword argument value is not an expression")
    else .ok (some kw, mc.2)

/-- `Parser.out`: `out x,_,z = expr ;?`. -/
def out (pe : PyEval) :
    Nat → PState → Except PExn (Option MFStmt × PState)
  | 0, _ => .error .outOfFuel
  | fuel + 1, s =>
    let token := s.previous
    let tl := out_targets_loop (s.token_buffer.length + s.tokens.length + 2) [] s
    let targets := tl.1
    let s := tl.2
    let s :=
      if targets.isEmpty then
        error_at token "Expect variable name or \"_\" after \"out\"." s
      else s
    match expression pe fuel s with
    | .error e => .error e
    | .ok (v, s) =>
      match v with
      | Option.none => .ok (Option.none, s)
      | some (.exprStmt ve) =>
        let s := (matchT .SEMICOLON s).2
        .ok (some (.out token targets ve), {s with curr_node := Option.none})
      | some _ => .error (.assertionError "out value is not an expression")

/-- `Parser.function_def`. -/
def function_def (pe : PyEval) :
    Nat → PState → Except PExn (MFStmt × PState)
  | 0, _ => .error .outOfFuel
  | fuel + 1, s =>
    let m := matchT .IDENTIFIER s
    let step :=
      if m.1 then (true, m.2)
      else
        let m2 := matchT .STRING m.2
        (m2.1, m2.2)
    let s := if step.1 then step.2 else error "Expected function name." step.2
    let token := s.previous
    let nm :=
      if token.token_type == .STRING then strip_quotes token.lexeme
      else token.lexeme
    match parse_func_structure pe fuel s with
    | .error e => .error e
    | .ok (abr, s) =>
      .ok (.functionDef token nm abr.1 abr.2.1 abr.2.2, s)

/-- `Parser.nodegroup_def` (identical shape to `function_def`). -/
def nodegroup_def (pe : PyEval) :
    Nat → PState → Except PExn (MFStmt × PState)
  | 0, _ => .error .outOfFuel
  | fuel + 1, s =>
    let m := matchT .IDENTIFIER s
    let step :=
      if m.1 then (true, m.2)
      else
        let m2 := matchT .STRING m.2
        (m2.1, m2.2)
    let s := if step.1 then step.2 else error "Expected node group name." step.2
    let token := s.previous
    let nm :=
      if token.token_type == .STRING then strip_quotes token.lexeme
      else token.lexeme
    match parse_func_structure pe fuel s with
    | .error e => .error e
    | .ok (abr, s) =>
      .ok (.nodegroupDef token nm abr.1 abr.2.1 abr.2.2, s)

/-- `Parser.parse_func_structure`: `( args ) (-> returns)? { body }`. -/
def parse_func_structure (pe : PyEval) :
    Nat → PState →
      Except PExn ((List MFArg × List MFStmt × List MFArg) × PState)
  | 0, _ => .error .outOfFuel
  | fuel + 1, s =>
    let s := consume .LEFT_PAREN "Expect \"(\" after name." s
    match pfs_args_loop pe fuel [] s with
    | .error e => .error e
    | .ok (args, s) =>
      let s := consume .RIGHT_PAREN "Expect closing \")\"." s
      let m := matchT .ARROW s
      match (if m.1 then
               (parse_arg pe fuel m.2).bind
                 (fun p => pfs_returns_loop pe fuel [p.1] p.2)
             else .ok ([], m.2)) with
      | .error e => .error e
      | .ok (returns, s) =>
        let s := consume .LEFT_BRACE "Expect function body." s
        match pfs_body_loop pe fuel [] s with
        | .error e => .error e
        | .ok (body, s) =>
          let s := consume .RIGHT_BRACE "Expect closing \"\x7d\"." s
          .ok ((args, body, returns), {s with curr_node := Option.none})

/-- The parameter loop of `parse_func_structure`. -/
def pfs_args_loop (pe : PyEval) :
    Nat → List MFArg → PState → Except PExn (List MFArg × PState)
  | 0, _, _ => .error .outOfFuel
  | fuel + 1, acc, s =>
    if check .RIGHT_PAREN s then .ok (acc, s)
    else
      match parse_arg pe fuel s with
      | .error e => .error e
      | .ok (a, s) =>
        let m := matchT .COMMA s
        if m.1 then pfs_args_loop pe fuel (acc ++ [a]) m.2
        else .ok (acc ++ [a], m.2)

/-- The return-list loop of `parse_func_structure`
(`while match(COMMA): returns.append(parse_arg())`). -/
def pfs_returns_loop (pe : PyEval) :
    Nat → List MFArg → PState → Except PExn (List MFArg × PState)
  | 0, _, _ => .error .outOfFuel
  | fuel + 1, acc, s =>
    let m := matchT .COMMA s
    if m.1 then
      match parse_arg pe fuel m.2 with
      | .error e => .error e
      | .ok (a, s) => pfs_returns_loop pe fuel (acc ++ [a]) s
    else .ok (acc, m.2)

/-- The body loop shared by `parse_func_structure` and `loop`
(`while not (check(RIGHT_BRACE) or match(EOL)): declaration()`). -/
def pfs_body_loop (pe : PyEval) :
    Nat → List MFStmt → PState → Except PExn (List MFStmt × PState)
  | 0, _, _ => .error .outOfFuel
  | fuel + 1, acc, s =>
    if check .RIGHT_BRACE s then .ok (acc, s)
    else
      let m := matchT .EOL s
      if m.1 then .ok (acc, m.2)
      else
        match declaration pe fuel m.2 with
        | .error e => .error e
        | .ok (st, s) =>
          let acc := match st with | some v => acc ++ [v] | Option.none => acc
          pfs_body_loop pe fuel acc s

/-- `Parser.parse_arg`: `name : type (= default)?`. -/
def parse_arg (pe : PyEval) :
    Nat → PState → Except PExn (MFArg × PState)
  | 0, _ => .error .outOfFuel
  | fuel + 1, s =>
    let s := consume .IDENTIFIER "Expect argument name" s
    let token := s.previous
    let nm := token.lexeme
    let tp := parse_type s
    let var_type := tp.1
    let m := matchT .EQUAL tp.2
    match (if m.1 then
             (expression pe fuel m.2).bind
               (fun p => (as_expr p.1).map (fun q => (q, p.2)))
           else .ok (Option.none, m.2)) with
    | .error e => .error e
    | .ok (dflt, s) => .ok (.mk token nm var_type dflt, s)

/-- `Parser.loop`: `loop (i =)? n (-> m)? { body }` with fixed integer
bounds; the single-bound form implies start `1`. -/
def loop (pe : PyEval) :
    Nat → PState → Except PExn (MFStmt × PState)
  | 0, _ => .error .outOfFuel
  | fuel + 1, s =>
    let token := s.previous
    let mv := matchT .IDENTIFIER s
    let vr :=
      if mv.1 then
        let v := some (mv.2.previous, mv.2.previous.lexeme)
        (v, consume .EQUAL "Expect \"=\" after loop variable." mv.2)
      else (Option.none, mv.2)
    let p1 := parse_int vr.2
    let m := matchT .ARROW p1.2
    let bounds :=
      if m.1 then
        let p2 := parse_int m.2
        ((p1.1, p2.1), p2.2)
      else ((1, p1.1), m.2)
    let s := consume .LEFT_BRACE "Expect loop body." bounds.2
    match pfs_body_loop pe fuel [] s with
    | .error e => .error e
    | .ok (body, s) =>
      let s := consume .RIGHT_BRACE "Expect closing \"\x7d\"." s
      .ok (.loop token vr.1 bounds.1.1 bounds.1.2 body, {s with curr_node := Option.none})

end

/-- `Parser.parse`: the public entry point, returning the module (the
recorded diagnostics live in the final state's `errors`). -/
def parse (pe : PyEval) : Nat → PState → Except PExn (Module × PState)
  | 0, _ => .error .outOfFuel
  | fuel + 1, s =>
    match parse_loop pe fuel [] s with
    | .error e => .error e
    | .ok (body, s) => .ok (⟨body⟩, s)

/-- Fuel sufficient for the concrete runs evaluated in the theorems. -/
def parse_fuel (toks : List Token) : Nat := 64 * (toks.length + 2)

/-- Run the parser over a scanner token stream. -/
def parse_source (pe : PyEval) (toks : List Token) :
    Except PExn (Module × PState) :=
  parse pe (parse_fuel toks) (mk_state toks)

end Parser

/-! ### Observation functions and fixtures -/

/-- Number of inner-tree constructions (`bpy.data.node_groups.new`) for a
given group name in a backend trace: each one marks one execution of that
sub-graph's body. -/
def countGroupTreeNew (gn : String) (tr : List BEvent) : Nat :=
  tr.countP (fun e =>
    match e with
    | .newGroupTree n _ => n == gn
    | _ => false)

/-- Number of reference-node instantiations for a given group name. -/
def countGroupRefNew (gn : String) (tr : List BEvent) : Nat :=
  tr.countP (fun e =>
    match e with
    | .newGroupRefNode _ _ n _ => n == gn
    | _ => false)

mutual
/-- Does executing this operation reach a `CALL_NODEGROUP` of the given
name, transitively through function and node-group bodies?  Only a
`.group` payload under `CALL_NODEGROUP` (resp. `.func` under
`CALL_FUNCTION`) is ever executed; any other payload shape either raises
or is inert. -/
def calls_group (gn : String) : Operation → Bool
  | .mk .CALL_NODEGROUP (.group (.mk n _ _ body)) =>
    n == gn || body_calls_group gn body
  | .mk .CALL_FUNCTION (.func (.mk _ _ body)) => body_calls_group gn body
  | _ => false
termination_by op => sizeOf op
decreasing_by
  all_goals simp_wf
  all_goals omega

/-- `calls_group` over an operation list. -/
def body_calls_group (gn : String) : List Operation → Bool
  | [] => false
  | op :: rest => calls_group gn op || body_calls_group gn rest
termination_by ops => sizeOf ops
decreasing_by
  all_goals simp_wf
  all_goals omega
end

/-- A trivial backend oracle (no geometry or multi-input ports). -/
def noOracle : BackendOracle := fun _ _ => false

/-- A benign host-eval oracle: every embedded expression evaluates to the
float `0.0`. -/
def pyZero : PyEval := fun _ => .val (.ok "0.0")

/-- The host-eval oracle at the input `sqrt(-1)`: `math.sqrt(-1)` raises
`ValueError` (`math domain error`), which is not among the four exception
classes the `python` parse rule catches. -/
def pySqrt : PyEval := fun e =>
  if e == "sqrt(-1)" then .uncaught "ValueError: math domain error"
  else .val (.ok "0.0")

/-- A scanner token with only the lexeme and kind populated. -/
def mkTok (l : String) (t : TokenType) : Token := ⟨l, t, 0, 0, 0, Option.none⟩

/-- The token kinds whose rule-table entry carries the `binary` infix
handler (every binary operator of the language). -/
inductive BinOpTok where
  | minus | plus | percent | slash | hat | greater | less | star | star_star
  | less_equal | greater_equal | equal_equal | bang_equal | orT | andT
deriving Repr, DecidableEq

def BinOpTok.toTokenType : BinOpTok → TokenType
  | .minus => .MINUS
  | .plus => .PLUS
  | .percent => .PERCENT
  | .slash => .SLASH
  | .hat => .HAT
  | .greater => .GREATER
  | .less => .LESS
  | .star => .STAR
  | .star_star => .STAR_STAR
  | .less_equal => .LESS_EQUAL
  | .greater_equal => .GREATER_EQUAL
  | .equal_equal => .EQUAL_EQUAL
  | .bang_equal => .BANG_EQUAL
  | .orT => .OR
  | .andT => .AND

/-- Has the result state of `Parser.synchronize` reached a
synchronization point: a just-consumed semicolon, the end-of-line marker,
or a lookahead token starting a top-level declaration? -/
def sync_stopped (s : Parser.PState) : Prop :=
  s.previous.token_type = .EOL ∨ s.previous.token_type = .SEMICOLON
    ∨ s.current.token_type = .OUT ∨ s.current.token_type = .FUNCTION
    ∨ s.current.token_type = .NODEGROUP


/-! ### Supporting lemmas -/

/-- `stack[:-n]` is `drop n` in the head-first representation. -/
theorem get_args_snd (st : List Value) (n : Nat) :
    (get_args st n).2 = st.drop n := by
  unfold get_args
  split <;> simp_all

/-- Python `l[-i-1]` is the element at position `length - 1 - i`. -/
theorem pyIndex_neg_one_sub {α} (l : List α) (i : Nat) (hi : i < l.length) :
    pyIndex l (-(i : Int) - 1) = l.get? (l.length - 1 - i) := by
  unfold pyIndex
  rw [if_neg (by omega)]
  have h1 : (-(-(i : Int) - 1)).toNat = i + 1 := by omega
  rw [h1, if_pos (by omega)]
  congr 1
  omega

/-- A non-`Name` value resolves to itself under the `CREATE_VAR` chase. -/
theorem chase_of_not_name (vars : List (String × Value)) (fuel : Nat)
    (v : Value) (h : isNameRef v = false) : chase vars fuel v = some v := by
  cases v <;> simp_all [chase, isNameRef]

/-- Values accepted by the `CREATE_VAR` assertion are not `Name`s. -/
theorem create_var_ok_not_name (v : Value) (h : create_var_ok v = true) :
    isNameRef v = false := by
  cases v <;> simp_all [create_var_ok, isNameRef]

/-- A fixpoint of one chase step is a fixpoint of any number of steps. -/
theorem chaseN_fixpoint (vars : List (String × Value)) (v : Value)
    (hv : chaseStep vars v = v) (n : Nat) : chaseN vars n v = v := by
  induction n with
  | zero => rfl
  | succ n ih => rw [chaseN, hv, ih]

/-! ### C8 — `PACK_LIST` then `SPLIT_STRUCT` round-trip -/

/-- C8: for every stack and every `n` values on top of it, executing
`PACK_LIST(n)` (pop `n` values, reverse to source order, push as one
list) immediately followed by `SPLIT_STRUCT` (pop a list, push all its
elements individually) restores the interpreter state — in particular the
stack — exactly. -/
theorem pack_list_split_struct_roundtrip (geoIn multiIn : BackendOracle)
    (s : IState) (n : Nat) (h : n ≤ s.stack.length) :
    run_body geoIn multiIn
      [.mk .PACK_LIST (.vint n), .mk .SPLIT_STRUCT .vnone] s = .ok s := by
  simp [run_body, operation, h]

/-- Witness for C8 at a concrete three-element stack with `n = 2`. -/
theorem pack_list_split_struct_roundtrip_witness :
    2 ≤ ({init_state "GeometryNodeTree" with
            stack := [.vint 1, .vint 2, .vint 3] } : IState).stack.length
    ∧ run_body noOracle noOracle
        [.mk .PACK_LIST (.vint 2), .mk .SPLIT_STRUCT .vnone]
        {init_state "GeometryNodeTree" with stack := [.vint 1, .vint 2, .vint 3]}
      = .ok {init_state "GeometryNodeTree" with stack := [.vint 1, .vint 2, .vint 3]} :=
  ⟨by simp, pack_list_split_struct_roundtrip noOracle noOracle _ 2 (by simp)⟩

/-! ### C4 — `GET_OUTPUT` reverse indexing -/

/-- C4: `GET_OUTPUT(index)` on a stack whose top is a struct of `n` ports
pops the struct and pushes exactly the element at position `n - 1 - index`
(field order stored reversed), leaving the rest of the stack — and all
other state — unchanged. -/
theorem get_output_reverse_index (geoIn multiIn : BackendOracle)
    (s : IState) (elems rest : List Value) (i : Nat)
    (hs : s.stack = .vlist elems :: rest) (hi : i < elems.length) :
    operation geoIn multiIn (.mk .GET_OUTPUT (.vint i)) s
      = .ok {s with stack := elems.getD (elems.length - 1 - i) .vnone :: rest} := by
  simp only [operation, hs]
  rw [pyIndex_neg_one_sub elems i hi]
  have hlt : elems.length - 1 - i < elems.length := by omega
  rw [List.get?_eq_get hlt]
  have hd : elems.getD (elems.length - 1 - i) .vnone
      = elems.get ⟨elems.length - 1 - i, hlt⟩ := by
    simp [List.getD_eq_getElem?_getD, List.getElem?_eq_getElem hlt]
  rw [hd]

/-- Witness for C4: index `1` in a three-port struct selects position `1`
(= `3 - 1 - 1`). -/
theorem get_output_reverse_index_witness :
    ({init_state "GeometryNodeTree" with
        stack := [.vlist [.socket 1 0, .socket 2 0, .socket 3 0], .vint 7]} : IState).stack
      = .vlist [.socket 1 0, .socket 2 0, .socket 3 0] :: [.vint 7]
    ∧ 1 < ([Value.socket 1 0, .socket 2 0, .socket 3 0] : List Value).length
    ∧ operation noOracle noOracle (.mk .GET_OUTPUT (.vint 1))
        {init_state "GeometryNodeTree" with
          stack := [.vlist [.socket 1 0, .socket 2 0, .socket 3 0], .vint 7]}
      = .ok {init_state "GeometryNodeTree" with
          stack := Value.socket 2 0 :: [.vint 7]} := by
  refine ⟨rfl, by simp, ?_⟩
  have h := get_output_reverse_index noOracle noOracle
    {init_state "GeometryNodeTree" with
      stack := [.vlist [.socket 1 0, .socket 2 0, .socket 3 0], .vint 7]}
    [.socket 1 0, .socket 2 0, .socket 3 0] [.vint 7] 1 rfl (by simp)
  simpa using h

/-! ### C9 — inline evaluation of raw `ListLiteral` payloads -/

/-- Counterexample for C9: a `CREATE_VAR` operation whose payload is a raw
`ListLiteral` is inline-evaluated and pushed — the interpreter checks the
payload shape before dispatching on the operation kind — instead of being
interpreted under `CREATE_VAR`'s own contract (whose payload must be a
string, anything else being an assertion failure).  So `PUSH_VALUE` is
not the only operation kind that accepts and evaluates a raw expression
payload. -/
theorem create_var_list_literal_evaluated_inline :
    operation noOracle noOracle (.mk .CREATE_VAR (.listLit []))
      (init_state "GeometryNodeTree")
    = .ok {init_state "GeometryNodeTree" with stack := [.vlist []]} := by
  simp [operation, eval_list_literal, init_state]

/-- C9 (amended): the inline evaluation of a raw `ListLiteral` payload
applies to every operation kind alike — the payload check precedes the
kind dispatch — and a `PUSH_VALUE` whose payload is not a `ListLiteral`
pushes it unevaluated. -/
theorem list_literal_payload_kind_irrelevant (geoIn multiIn : BackendOracle)
    (t : OpType) (es : List Value) (s : IState) :
    operation geoIn multiIn (.mk t (.listLit es)) s
      = operation geoIn multiIn (.mk .PUSH_VALUE (.listLit es)) s
    ∧ ∀ d : Value, (∀ xs, d ≠ .listLit xs) →
        operation geoIn multiIn (.mk .PUSH_VALUE d) s
          = .ok {s with stack := d :: s.stack} := by
  constructor
  · cases t <;> simp [operation]
  · intro d hd
    cases d <;> first
      | exact absurd rfl (hd _)
      | simp [operation]

/-- Witness for C9's amended statement. -/
theorem list_literal_payload_kind_irrelevant_witness :
    (operation noOracle noOracle (.mk .CREATE_VAR (.listLit []))
        (init_state "GeometryNodeTree")
      = operation noOracle noOracle (.mk .PUSH_VALUE (.listLit []))
        (init_state "GeometryNodeTree"))
    ∧ operation noOracle noOracle (.mk .PUSH_VALUE (.vint 5))
        (init_state "GeometryNodeTree")
      = .ok {init_state "GeometryNodeTree" with stack := [.vint 5]} :=
  ⟨(list_literal_payload_kind_irrelevant noOracle noOracle .CREATE_VAR []
      (init_state "GeometryNodeTree")).1,
   (list_literal_payload_kind_irrelevant noOracle noOracle .CREATE_VAR []
      (init_state "GeometryNodeTree")).2 (.vint 5) (by intro xs h; cases h)⟩

/-! ### C5 — termination of the `CREATE_VAR` name chase -/

/-- Counterexample for C5: popping a `Name` that is unbound in the
variable table makes the source loop `while isinstance(socket, Name):
socket = self.variables.get(var_id, socket)` run forever — `dict.get`
returns the same `Name` as its own default.  The interpreter model flags
this as `chaseDiverged`, and `chaseTerminates` (the exact statement "the
source loop reaches a non-Name in finitely many steps") is false. -/
theorem create_var_unbound_alias_loops_forever :
    operation noOracle noOracle (.mk .CREATE_VAR (.vstr "y"))
      {init_state "GeometryNodeTree" with stack := [.name "x"]}
      = .error .chaseDiverged
    ∧ ¬ chaseTerminates [] (.name "x") := by
  constructor
  · simp [operation, init_state, chase, dictGet]
  · rintro ⟨n, hn⟩
    rw [chaseN_fixpoint [] (.name "x") (by simp [chaseStep, dictGet])] at hn
    simp [isNameRef] at hn

/-- C5 (amended): the `CREATE_VAR` resolution terminates and binds the
identifier whenever the popped value is already concrete, or is a name
bound directly to a concrete value; when the popped name is unbound, or
aliases itself, the source loop never terminates (there is no cycle
guard). -/
theorem create_var_resolution (geoIn multiIn : BackendOracle) :
    (∀ (s : IState) (vn : String) (v : Value) (rest : List Value),
        s.stack = v :: rest → create_var_ok v = true →
        operation geoIn multiIn (.mk .CREATE_VAR (.vstr vn)) s
          = .ok {s with stack := rest, vars := dictSet s.vars vn v})
    ∧ (∀ (s : IState) (vn id : String) (w : Value) (rest : List Value),
        s.stack = .name id :: rest → dictGet s.vars id = some w →
        create_var_ok w = true →
        operation geoIn multiIn (.mk .CREATE_VAR (.vstr vn)) s
          = .ok {s with stack := rest, vars := dictSet s.vars vn w})
    ∧ (∀ (vars : List (String × Value)) (id : String),
        dictGet vars id = Option.none → ¬ chaseTerminates vars (.name id))
    ∧ (∀ (vars : List (String × Value)) (id : String),
        dictGet vars id = some (.name id) → ¬ chaseTerminates vars (.name id)) := by
  refine ⟨?_, ?_, ?_, ?_⟩
  · intro s vn v rest hs hok
    simp only [operation, hs]
    rw [chase_of_not_name _ _ _ (create_var_ok_not_name v hok)]
    simp [hok]
  · intro s vn id w rest hs hlook hok
    simp only [operation, hs]
    rw [show s.vars.length + 1 = s.vars.length + 1 from rfl]
    rw [chase, hlook]
    simp only [Option.getD_some]
    rw [chase_of_not_name _ _ _ (create_var_ok_not_name w hok)]
    simp [hok]
  · intro vars id hlook
    rintro ⟨n, hn⟩
    rw [chaseN_fixpoint vars (.name id) (by simp [chaseStep, hlook])] at hn
    simp [isNameRef] at hn
  · intro vars id hlook
    rintro ⟨n, hn⟩
    rw [chaseN_fixpoint vars (.name id) (by simp [chaseStep, hlook])] at hn
    simp [isNameRef] at hn

/-- Witness for C5's amended statement. -/
theorem create_var_resolution_witness :
    (({init_state "G" with stack := [.socket 4 0]} : IState).stack
        = .socket 4 0 :: [] ∧ create_var_ok (.socket 4 0) = true)
    ∧ operation noOracle noOracle (.mk .CREATE_VAR (.vstr "x"))
        {init_state "G" with stack := [.socket 4 0]}
      = .ok {({init_state "G" with stack := [.socket 4 0]} : IState) with
              stack := [], vars := dictSet [] "x" (.socket 4 0)}
    ∧ dictGet ([] : List (String × Value)) "z" = Option.none
    ∧ ¬ chaseTerminates [] (.name "z") :=
  ⟨⟨rfl, rfl⟩,
   (create_var_resolution noOracle noOracle).1 _ "x" (.socket 4 0) [] rfl rfl,
   rfl,
   (create_var_resolution noOracle noOracle).2.2.1 [] "z" rfl⟩

/-! ### C2 — `CALL_FUNCTION` frame save/restore -/

/-- The function body used by C2's counterexample: no inputs, no outputs,
one builtin-node creation. -/
def fn_leak : CompiledFunction :=
  .mk [] 0 [.mk .CALL_BUILTIN (.builtin (.mk "ShaderNodeValue" [] [] []))]

/-- Counterexample for C2: a function body that creates one builtin node
leaves the caller's created-node list (`self.nodes`) changed after the
call returns — interpreter state beyond the sub-graph cache and the
port-identity table leaks across the call boundary, contrary to the
claim. -/
theorem call_function_mutates_node_list :
    (operation noOracle noOracle (.mk .CALL_FUNCTION (.func fn_leak))
        (init_state "ShaderNodeTree")).toOption.map IState.nodes = some [0]
    ∧ (init_state "ShaderNodeTree").nodes = [] := by
  constructor
  · simp [operation, fn_leak, run_body, add_builtin, set_props,
      connect_builtin_args, collect_function_outputs,
      collect_function_outputs.all_sockets, init_state, get_args, emit,
      zipBind, NodeInstance.outputs, NodeInstance.inputs, NodeInstance.key,
      Except.toOption]
  · rfl

/-- C2 (amended): after a successful `CALL_FUNCTION`, the caller's
variable environment and output-slot array are restored exactly, and the
caller's stack equals its pre-call stack with the arguments popped and
the collected output(s) pushed; all remaining interpreter state — not
only the sub-graph cache and the port-identity table, but also the
created-node list, the fresh-id counters and the backend trace — flows
out of the body run `t`. -/
theorem call_function_frame_isolation (geoIn multiIn : BackendOracle)
    (inputs : List String) (num_outputs : Nat) (body : List Operation)
    (s t : IState) (pushed : List Value)
    (hbody : run_body geoIn multiIn body
        {s with vars := zipBind inputs (get_args s.stack inputs.length).1 [],
                function_outputs := List.replicate num_outputs Option.none,
                stack := []} = .ok t)
    (hout : collect_function_outputs t.function_outputs = .ok pushed) :
    operation geoIn multiIn
        (.mk .CALL_FUNCTION (.func (.mk inputs num_outputs body))) s
      = .ok {t with stack := pushed ++ s.stack.drop inputs.length,
                    function_outputs := s.function_outputs,
                    vars := s.vars} := by
  simp only [operation]
  rw [hbody]
  simp only [hout, get_args_snd]

/-- Witness for C2's amended statement (empty body, no inputs/outputs). -/
theorem call_function_frame_isolation_witness :
    operation noOracle noOracle (.mk .CALL_FUNCTION (.func (.mk [] 0 [])))
      (init_state "GeometryNodeTree")
    = .ok {init_state "GeometryNodeTree" with
            stack := [] ++ (init_state "GeometryNodeTree").stack.drop 0,
            function_outputs := (init_state "GeometryNodeTree").function_outputs,
            vars := (init_state "GeometryNodeTree").vars} :=
  call_function_frame_isolation noOracle noOracle [] 0 []
    (init_state "GeometryNodeTree") (init_state "GeometryNodeTree") []
    (by simp [run_body, init_state, zipBind, get_args])
    (by simp [collect_function_outputs, init_state])


/-! ### Trace bookkeeping for the node-group memoization claim -/

/-- Backend events that are neither an inner-tree construction nor a
reference-node instantiation. -/
def group_free (l : List BEvent) : Bool :=
  l.all (fun e =>
    match e with
    | .newGroupTree _ _ => false
    | .newGroupRefNode _ _ _ _ => false
    | _ => true)

theorem countGroupTreeNew_append (gn : String) (t1 t2 : List BEvent) :
    countGroupTreeNew gn (t1 ++ t2)
      = countGroupTreeNew gn t1 + countGroupTreeNew gn t2 :=
  List.countP_append _ _ _

theorem countGroupRefNew_append (gn : String) (t1 t2 : List BEvent) :
    countGroupRefNew gn (t1 ++ t2)
      = countGroupRefNew gn t1 + countGroupRefNew gn t2 :=
  List.countP_append _ _ _

theorem group_free_counts (gn : String) (l : List BEvent)
    (h : group_free l = true) :
    countGroupTreeNew gn l = 0 ∧ countGroupRefNew gn l = 0 := by
  induction l with
  | nil => simp [countGroupTreeNew, countGroupRefNew]
  | cons e rest ih =>
    simp only [group_free, List.all_cons, Bool.and_eq_true] at h
    have hr := ih h.2
    have he := h.1
    cases e <;> simp_all [countGroupTreeNew, countGroupRefNew, List.countP_cons]

/-- `s'` equals `s` except that its trace extends `s`'s by group-free
events only, and possibly different stack / nodes / tables / counters;
the output-slot array is kept.  This is the common effect of all the
non-call helper functions of the interpreter. -/
def preserves_core (s s' : IState) : Prop :=
  s'.function_outputs = s.function_outputs
  ∧ s'.stack = s.stack
  ∧ s'.vars = s.vars
  ∧ s'.node_group_trees = s.node_group_trees
  ∧ ∃ extra, s'.trace = s.trace ++ extra ∧ group_free extra = true

theorem preserves_core_refl (s : IState) : preserves_core s s :=
  ⟨rfl, rfl, rfl, rfl, [], by simp, rfl⟩

theorem preserves_core_trans {s t u : IState}
    (h1 : preserves_core s t) (h2 : preserves_core t u) :
    preserves_core s u := by
  obtain ⟨f1, k1, v1, g1, e1, t1, hf1⟩ := h1
  obtain ⟨f2, k2, v2, g2, e2, t2, hf2⟩ := h2
  refine ⟨f2.trans f1, k2.trans k1, v2.trans v1, g2.trans g1, e1 ++ e2, ?_, ?_⟩
  · rw [t2, t1, List.append_assoc]
  · simp only [group_free, List.all_append, Bool.and_eq_true]
    exact ⟨hf1, hf2⟩

theorem preserves_core_emit (e : BEvent) (s : IState)
    (h : group_free [e] = true) : preserves_core s (emit e s) :=
  ⟨rfl, rfl, rfl, rfl, [e], rfl, h⟩

theorem preserves_core_bump (s : IState) (n : Nat) :
    preserves_core s {s with next_node := n} :=
  ⟨rfl, rfl, rfl, rfl, [], by simp, rfl⟩

theorem preserves_core_counts (gn : String) {s s' : IState}
    (h : preserves_core s s') :
    countGroupTreeNew gn s'.trace = countGroupTreeNew gn s.trace
    ∧ countGroupRefNew gn s'.trace = countGroupRefNew gn s.trace := by
  obtain ⟨-, -, -, -, extra, htr, hfree⟩ := h
  have hc := group_free_counts gn extra hfree
  rw [htr, countGroupTreeNew_append, countGroupRefNew_append, hc.1, hc.2]
  omega

theorem set_props_core (nd : Nat) (props : List (String × Value))
    (s : IState) : preserves_core s (set_props nd props s) := by
  unfold set_props
  induction props generalizing s with
  | nil => exact preserves_core_refl s
  | cons p rest ih =>
    simp only [List.foldl_cons]
    refine preserves_core_trans ?_ (ih _)
    exact preserves_core_emit _ _ rfl

theorem connect_group_args_core (nd : Nat) (args : List Value) (s : IState) :
    preserves_core s (connect_group_args nd args s) := by
  unfold connect_group_args
  generalize args.enum = l
  induction l generalizing s with
  | nil => exact preserves_core_refl s
  | cons p rest ih =>
    simp only [List.foldl_cons]
    refine preserves_core_trans ?_ (ih _)
    rcases p with ⟨i, v⟩
    cases v
    all_goals dsimp only
    all_goals first
      | exact preserves_core_refl _
      | exact preserves_core_emit _ _ rfl

theorem connect_group_outputs_core (goNode : Nat)
    (fouts : List (Option Value)) (s : IState) :
    preserves_core s (connect_group_outputs goNode fouts s) := by
  unfold connect_group_outputs
  generalize fouts.enum = l
  induction l generalizing s with
  | nil => exact preserves_core_refl s
  | cons p rest ih =>
    simp only [List.foldl_cons]
    refine preserves_core_trans ?_ (ih _)
    rcases p with ⟨i, v⟩
    rcases v with _ | v
    · exact preserves_core_refl _
    · cases v
      all_goals dsimp only
      all_goals first
        | exact preserves_core_refl _
        | exact preserves_core_emit _ _ rfl

theorem new_interface_sockets_core (tr : Nat) (isInput : Bool)
    (decls : List SocketDecl) (s s' : IState)
    (h : new_interface_sockets tr isInput decls s = .ok s') :
    preserves_core s s' := by
  induction decls generalizing s with
  | nil =>
    simp only [new_interface_sockets] at h
    cases h
    exact preserves_core_refl _
  | cons d rest ih =>
    rcases d with ⟨nm, dt, dv⟩
    simp only [new_interface_sockets] at h
    rcases hdt : data_type_to_socket_type dt with _ | st
    · rw [hdt] at h; cases h
    · rw [hdt] at h
      rcases dv with _ | v
      · dsimp only at h
        refine preserves_core_trans ?_ (ih _ h)
        exact preserves_core_emit _ _ rfl
      · dsimp only at h
        refine preserves_core_trans ?_ (ih _ h)
        refine preserves_core_trans (preserves_core_emit
          (.newInterfaceSocket tr nm isInput st) s rfl) ?_
        exact preserves_core_emit _ _ rfl

theorem connect_builtin_list_arg_core (geoIn multiIn : BackendOracle)
    (nd : Nat) (key : String) (input_index : Nat) (elems : List Value)
    (s s' : IState)
    (h : connect_builtin_list_arg geoIn multiIn nd key input_index elems s
      = .ok s') : preserves_core s s' := by
  unfold connect_builtin_list_arg at h
  by_cases hjoin : (key == "GeometryNodeJoinGeometry") = true
  · rw [if_pos hjoin] at h
    cases h
    generalize elems.reverse = l
    induction l generalizing s with
    | nil => exact preserves_core_refl s
    | cons v rest ih =>
      simp only [List.foldl_cons]
      refine preserves_core_trans ?_ (ih _)
      dsimp only
      cases hg : get_output_socket s (resolve_geo s v)
      all_goals first
        | exact preserves_core_emit _ _ rfl
        | exact preserves_core_refl _
  · rw [if_neg hjoin] at h
    by_cases hgeo : geoIn key input_index = true
    · rw [if_pos hgeo] at h
      by_cases hmulti : multiIn key input_index = true
      · rw [if_pos hmulti] at h
        cases h
        generalize elems = l
        induction l generalizing s with
        | nil => exact preserves_core_refl s
        | cons v rest ih =>
          simp only [List.foldl_cons]
          refine preserves_core_trans ?_ (ih _)
          dsimp only
          cases hg : get_output_socket s (resolve_geo s v)
          all_goals first
            | exact preserves_core_emit _ _ rfl
            | exact preserves_core_refl _
      · rw [if_neg hmulti] at h
        rcases elems with _ | ⟨e, rest⟩
        · cases h
        · cases e <;> simp only at h <;> cases h
          all_goals first
            | exact preserves_core_emit _ _ rfl
            | exact preserves_core_refl _
    · rw [if_neg hgeo] at h
      cases h
      exact preserves_core_refl _

theorem connect_builtin_args_core (geoIn multiIn : BackendOracle) (nd : Nat)
    (key : String) (inputs : List Nat) (args : List Value) (i : Nat)
    (s s' : IState)
    (h : connect_builtin_args geoIn multiIn nd key inputs args i s = .ok s') :
    preserves_core s s' := by
  induction inputs generalizing i s with
  | nil =>
    simp only [connect_builtin_args] at h
    cases h
    exact preserves_core_refl _
  | cons input_index rest ih =>
    simp only [connect_builtin_args] at h
    rcases hget : args.get? i with _ | arg <;> rw [hget] at h <;> dsimp only at h
    · cases h
    · cases arg
      case vlist elems =>
        dsimp only at h
        rcases hc : connect_builtin_list_arg geoIn multiIn nd key input_index
            elems s with e | s2 <;> rw [hc] at h <;> dsimp only at h
        · cases h
        · exact preserves_core_trans
            (connect_builtin_list_arg_core _ _ _ _ _ _ _ _ hc) (ih _ _ h)
      all_goals dsimp only at h
      all_goals first
        | exact ih _ _ h
        | (refine preserves_core_trans ?_ (ih _ _ h)
           exact preserves_core_emit _ _ rfl)

theorem add_builtin_core (geoIn multiIn : BackendOracle) (b : NodeInstance)
    (args : List Value) (s : IState) (nd : Nat) (s' : IState)
    (h : add_builtin geoIn multiIn b args s = .ok (nd, s')) :
    preserves_core s s' := by
  rcases b with ⟨key, props, inputs, outputs⟩
  simp only [add_builtin] at h
  rcases hc : connect_builtin_args geoIn multiIn s.next_node key inputs args 0
      (set_props s.next_node props
        (emit (.newNode s.tree key s.next_node) {s with next_node := s.next_node + 1}))
      with e | s2
  · rw [hc] at h; cases h
  · rw [hc] at h
    cases h
    refine preserves_core_trans ?_ (connect_builtin_args_core _ _ _ _ _ _ _ _ _ hc)
    refine preserves_core_trans ?_ (set_props_core _ _ _)
    refine preserves_core_trans (preserves_core_bump s (s.next_node + 1)) ?_
    exact preserves_core_emit _ _ rfl

/-- Effect of `instantiate_group_node` on the trace counters: no inner
tree is built; exactly one reference node for its own group name. -/
theorem instantiate_group_node_counts (gn : String) (info : TreeInfo)
    (args : List Value) (s : IState) (gn' : String) :
    countGroupTreeNew gn' (instantiate_group_node gn info args s).trace
      = countGroupTreeNew gn' s.trace
    ∧ countGroupRefNew gn' (instantiate_group_node gn info args s).trace
      = countGroupRefNew gn' s.trace + (if gn == gn' then 1 else 0) := by
  have hc := connect_group_args_core (s.next_node) args
    (emit (.newGroupRefNode s.tree
      (if s.bl_idname == "GeometryNodeTree" then "GeometryNodeGroup"
        else "ShaderNodeGroup") gn s.next_node)
      {s with next_node := s.next_node + 1})
  obtain ⟨-, -, -, -, extra, htr, hfree⟩ := hc
  have hfc := group_free_counts gn' extra hfree
  have htrace : (instantiate_group_node gn info args s).trace
      = s.trace ++ (BEvent.newGroupRefNode s.tree
          (if s.bl_idname == "GeometryNodeTree" then "GeometryNodeGroup"
            else "ShaderNodeGroup") gn s.next_node) :: extra := by
    unfold instantiate_group_node
    dsimp only
    split
    · rw [htr]; simp [emit]
    · split
      · rw [htr]; simp [emit]
      · rw [htr]; simp [emit]
  have h1 : ∀ (a : Nat) (b : String) (c : String) (d : Nat) (l : List BEvent),
      countGroupTreeNew gn' (BEvent.newGroupRefNode a b c d :: l)
        = countGroupTreeNew gn' l := by
    intro a b c d l
    simp [countGroupTreeNew, List.countP_cons]
  have h2 : ∀ (a : Nat) (b : String) (c : String) (d : Nat) (l : List BEvent),
      countGroupRefNew gn' (BEvent.newGroupRefNode a b c d :: l)
        = countGroupRefNew gn' l + (if c == gn' then 1 else 0) := by
    intro a b c d l
    by_cases hcg : c = gn' <;>
      simp [countGroupRefNew, List.countP_cons, hcg]
  rw [htrace, countGroupTreeNew_append, countGroupRefNew_append, h1, h2,
    hfc.1, hfc.2]
  constructor
  · omega
  · by_cases hgg : gn = gn' <;> simp [hgg]

/-- `instantiate_group_node` keeps the output-slot array. -/
theorem instantiate_group_node_fo (gn : String) (info : TreeInfo)
    (args : List Value) (s : IState) :
    (instantiate_group_node gn info args s).function_outputs
      = s.function_outputs := by
  unfold instantiate_group_node
  have hc := connect_group_args_core (s.next_node) args
    (emit (.newGroupRefNode s.tree
      (if s.bl_idname == "GeometryNodeTree" then "GeometryNodeGroup"
        else "ShaderNodeGroup") gn s.next_node)
      {s with next_node := s.next_node + 1})
  obtain ⟨hf, -, -, -, -⟩ := hc
  simp only []
  split
  · simpa [emit] using hf
  · split <;> simpa [emit] using hf

/-! ### Interpreter-wide invariants: output-slot arity and group-event counts -/

theorem or_false_split {a b : Bool} (h : (a || b) = false) :
    a = false ∧ b = false := by
  cases a <;> cases b <;> simp_all

/-- Python `l[j] = v` never changes the list length. -/
theorem pyListSet_length (l : List α) (j : Int) (v : α) (l' : List α)
    (h : pyListSet l j v = some l') : l'.length = l.length := by
  unfold pyListSet at h
  split at h
  · split at h
    · cases h
      simp
    · exact Option.noConfusion h
  · split at h
    · cases h
      simp
    · exact Option.noConfusion h

theorem find_map_update (l : List (String × α)) (k : String) (v : α)
    (h : (l.find? (fun p => p.1 == k)).isSome = true) :
    ((l.map (fun p => if p.1 == k then (k, v) else p)).find? (fun p => p.1 == k))
      = some (k, v) := by
  induction l with
  | nil => simp at h
  | cons p rest ih =>
    cases hp : (p.1 == k)
    · simp only [List.find?, hp] at h
      simpa [List.find?, hp] using ih h
    · simp [List.find?, hp]

theorem find_append_self (l : List (String × α)) (k : String) (v : α)
    (h : (l.find? (fun p => p.1 == k)).isSome = false) :
    ((l ++ [(k, v)]).find? (fun p => p.1 == k)) = some (k, v) := by
  induction l with
  | nil => simp [List.find?]
  | cons p rest ih =>
    cases hp : (p.1 == k)
    · simp only [List.find?, hp] at h
      simpa [List.cons_append, List.find?, hp] using ih h
    · simp [List.find?, hp] at h

/-- `d[k] = v; d.get(k)` returns `v` (Python dict assignment then lookup). -/
theorem dictGet_dictSet_self (d : List (String × α)) (k : String) (v : α) :
    dictGet (dictSet d k v) k = some v := by
  unfold dictGet dictSet
  split
  · rename_i hfind
    rw [find_map_update d k v hfind]
    rfl
  · rename_i hfind
    have hflat : (d.find? (fun p => p.1 == k)).isSome = false := by
      cases hfb : (d.find? (fun p => p.1 == k)).isSome
      · rfl
      · exact absurd hfb hfind
    rw [find_append_self d k v hflat]
    rfl

theorem countTree_emit_groupTree (gn n : String) (t : Nat) (s : IState) :
    countGroupTreeNew gn (emit (.newGroupTree n t) s).trace
      = countGroupTreeNew gn s.trace + (if n == gn then 1 else 0) := by
  cases hp : (n == gn) <;>
    simp [emit, countGroupTreeNew, List.countP_append, List.countP_cons, hp]

theorem countRef_emit_groupTree (gn n : String) (t : Nat) (s : IState) :
    countGroupRefNew gn (emit (.newGroupTree n t) s).trace
      = countGroupRefNew gn s.trace := by
  simp [emit, countGroupRefNew, List.countP_append, List.countP_cons]

/-- `instantiate_group_node` keeps the sub-graph cache. -/
theorem instantiate_group_node_ngt (gn : String) (info : TreeInfo)
    (args : List Value) (s : IState) :
    (instantiate_group_node gn info args s).node_group_trees
      = s.node_group_trees := by
  have hc := connect_group_args_core (s.next_node) args
    (emit (.newGroupRefNode s.tree
      (if s.bl_idname == "GeometryNodeTree" then "GeometryNodeGroup"
        else "ShaderNodeGroup") gn s.next_node)
      {s with next_node := s.next_node + 1})
  obtain ⟨-, -, -, hg, -⟩ := hc
  unfold instantiate_group_node
  simp only []
  split
  · simpa [emit] using hg
  · split <;> simpa [emit] using hg

/-- With a zero-output descriptor `instantiate_group_node` pushes nothing. -/
theorem instantiate_group_node_stack_zero (gn : String) (info : TreeInfo)
    (args : List Value) (s : IState) (h : info.num_outputs = 0) :
    (instantiate_group_node gn info args s).stack = s.stack := by
  have hc := connect_group_args_core (s.next_node) args
    (emit (.newGroupRefNode s.tree
      (if s.bl_idname == "GeometryNodeTree" then "GeometryNodeGroup"
        else "ShaderNodeGroup") gn s.next_node)
      {s with next_node := s.next_node + 1})
  obtain ⟨-, hk, -, -, -⟩ := hc
  unfold instantiate_group_node
  simp only [h]
  simpa [emit] using hk

/-- The two gateway nodes (`NodeGroupInput` / `NodeGroupOutput`) created on
the uncached path of `execute_node_group`, lines 265-266 of the source. -/
def group_gateway_state (tr : Nat) (t2 : IState) : IState :=
  let giNode := t2.next_node
  let s4 := emit (.newNode tr "NodeGroupInput" giNode) {t2 with next_node := giNode + 1}
  let goNode := s4.next_node
  emit (.newNode tr "NodeGroupOutput" goNode) {s4 with next_node := goNode + 1}

/-- The rebound state in which the node-group body runs (lines 268-278):
current tree is the inner tree, variables are the group-input sockets,
the output-slot array is `None`-filled, the stack is empty. -/
def group_inner_state (tr : Nat) (inputs : List SocketDecl) (outLen : Nat)
    (t2 : IState) : IState :=
  let g := group_gateway_state tr t2
  let v := bind_group_inputs t2.next_node inputs
  let fo : List (Option Value) := List.replicate outLen none
  {g with tree := tr, vars := v, function_outputs := fo, stack := []}

/-- The state after the body ran (result `t3`), the collected outputs were
wired to the output gateway, the outer state was restored and the inner
tree was cached (lines 283-296). -/
def group_finish_state (n : String) (tr : Nat) (outLen : Nat)
    (t2 t3 : IState) : IState :=
  let g := group_gateway_state tr t2
  let c := connect_group_outputs (t2.next_node + 1) t3.function_outputs t3
  let d := dictSet c.node_group_trees n ⟨tr, outLen⟩
  {c with stack := g.stack, function_outputs := g.function_outputs, vars := g.vars, tree := g.tree, node_group_trees := d}

theorem group_gateway_core (tr : Nat) (t2 : IState) :
    preserves_core t2 (group_gateway_state tr t2) := by
  simp only [group_gateway_state]
  refine preserves_core_trans ?_ (preserves_core_emit _ _ rfl)
  refine preserves_core_trans ?_ (preserves_core_bump _ _)
  refine preserves_core_trans ?_ (preserves_core_emit _ _ rfl)
  exact preserves_core_bump _ _

theorem group_gateway_state_fo (tr : Nat) (t2 : IState) :
    (group_gateway_state tr t2).function_outputs = t2.function_outputs := rfl

theorem group_gateway_state_stack (tr : Nat) (t2 : IState) :
    (group_gateway_state tr t2).stack = t2.stack := rfl

theorem group_inner_state_trace (tr : Nat) (inputs : List SocketDecl)
    (m : Nat) (t2 : IState) :
    (group_inner_state tr inputs m t2).trace
      = (group_gateway_state tr t2).trace := rfl

theorem group_finish_state_trace (n : String) (tr m : Nat) (t2 t3 : IState) :
    (group_finish_state n tr m t2 t3).trace
      = (connect_group_outputs (t2.next_node + 1) t3.function_outputs t3).trace := rfl

theorem group_finish_state_fo (n : String) (tr m : Nat) (t2 t3 : IState) :
    (group_finish_state n tr m t2 t3).function_outputs
      = (group_gateway_state tr t2).function_outputs := rfl

theorem group_finish_state_stack (n : String) (tr m : Nat) (t2 t3 : IState) :
    (group_finish_state n tr m t2 t3).stack
      = (group_gateway_state tr t2).stack := rfl

theorem group_finish_state_ngt (n : String) (tr m : Nat) (t2 t3 : IState) :
    (group_finish_state n tr m t2 t3).node_group_trees
      = dictSet (connect_group_outputs (t2.next_node + 1)
          t3.function_outputs t3).node_group_trees n ⟨tr, m⟩ := rfl

/-- Inversion of the uncached path of `execute_node_group`: a successful
first-time execution factors into the two interface-socket loops, the body
run in the rebound inner state, and a final reference-node instantiation
over the restore-and-cache state. -/
theorem execute_uncached_inversion (geoIn multiIn : BackendOracle)
    (n : String) (inputs outputs : List SocketDecl) (body : List Operation)
    (args : List Value) (s s' : IState)
    (hnone : dictGet s.node_group_trees n = none)
    (h : execute_node_group geoIn multiIn (.mk n inputs outputs body) args s
      = .ok s') :
    ∃ t1 t2 t3,
      new_interface_sockets s.next_tree true inputs
          (emit (.newGroupTree n s.next_tree) {s with next_tree := s.next_tree + 1})
        = .ok t1
      ∧ new_interface_sockets s.next_tree false outputs t1 = .ok t2
      ∧ run_body geoIn multiIn body
          (group_inner_state s.next_tree inputs outputs.length t2) = .ok t3
      ∧ s' = instantiate_group_node n ⟨s.next_tree, outputs.length⟩ args
          (group_finish_state n s.next_tree outputs.length t2 t3) := by
  simp only [execute_node_group, hnone] at h
  split at h
  · exact Except.noConfusion h
  · rename_i t1 hx1
    split at h
    · exact Except.noConfusion h
    · rename_i t2 hx2
      split at h
      · exact Except.noConfusion h
      · rename_i t3 hx3
        cases h
        exact ⟨t1, t2, t3, hx1, hx2, hx3, rfl⟩

/-- The trace-count effect of a full uncached `execute_node_group` run,
given the body's own count effect: one inner-tree construction and one
reference node for the group's name, nothing for any other name the body
does not reach. -/
theorem uncached_trace_counts
    (n : String) (inputs outputs : List SocketDecl)
    (args : List Value) (s : IState) (t1 t2 t3 : IState) (gn : String)
    (hx1 : new_interface_sockets s.next_tree true inputs
        (emit (.newGroupTree n s.next_tree) {s with next_tree := s.next_tree + 1})
      = .ok t1)
    (hx2 : new_interface_sockets s.next_tree false outputs t1 = .ok t2)
    (hcnt : countGroupTreeNew gn t3.trace
          = countGroupTreeNew gn (group_inner_state s.next_tree inputs outputs.length t2).trace
        ∧ countGroupRefNew gn t3.trace
          = countGroupRefNew gn (group_inner_state s.next_tree inputs outputs.length t2).trace) :
    countGroupTreeNew gn (instantiate_group_node n ⟨s.next_tree, outputs.length⟩ args
        (group_finish_state n s.next_tree outputs.length t2 t3)).trace
      = countGroupTreeNew gn s.trace + (if n == gn then 1 else 0)
    ∧ countGroupRefNew gn (instantiate_group_node n ⟨s.next_tree, outputs.length⟩ args
        (group_finish_state n s.next_tree outputs.length t2 t3)).trace
      = countGroupRefNew gn s.trace + (if n == gn then 1 else 0) := by
  obtain ⟨i1t, i1r⟩ := instantiate_group_node_counts n ⟨s.next_tree, outputs.length⟩
    args (group_finish_state n s.next_tree outputs.length t2 t3) gn
  have i2t := congrArg (countGroupTreeNew gn)
    (group_finish_state_trace n s.next_tree outputs.length t2 t3)
  have i2r := congrArg (countGroupRefNew gn)
    (group_finish_state_trace n s.next_tree outputs.length t2 t3)
  obtain ⟨i3t, i3r⟩ := preserves_core_counts gn
    (connect_group_outputs_core (t2.next_node + 1) t3.function_outputs t3)
  obtain ⟨i4t, i4r⟩ := hcnt
  have i5t := congrArg (countGroupTreeNew gn)
    (group_inner_state_trace s.next_tree inputs outputs.length t2)
  have i5r := congrArg (countGroupRefNew gn)
    (group_inner_state_trace s.next_tree inputs outputs.length t2)
  obtain ⟨i6t, i6r⟩ := preserves_core_counts gn (group_gateway_core s.next_tree t2)
  obtain ⟨i7t, i7r⟩ := preserves_core_counts gn
    (new_interface_sockets_core _ _ _ _ _ hx2)
  obtain ⟨i8t, i8r⟩ := preserves_core_counts gn
    (new_interface_sockets_core _ _ _ _ _ hx1)
  have i9t : countGroupTreeNew gn (emit (.newGroupTree n s.next_tree)
        {s with next_tree := s.next_tree + 1}).trace
      = countGroupTreeNew gn s.trace + (if n == gn then 1 else 0) :=
    countTree_emit_groupTree gn n s.next_tree {s with next_tree := s.next_tree + 1}
  have i9r : countGroupRefNew gn (emit (.newGroupTree n s.next_tree)
        {s with next_tree := s.next_tree + 1}).trace
      = countGroupRefNew gn s.trace :=
    countRef_emit_groupTree gn n s.next_tree {s with next_tree := s.next_tree + 1}
  cases hb : (n == gn) <;> simp only [hb] at i1r i9t ⊢ <;>
    simp only [Bool.false_eq_true, if_false, if_true, Nat.add_zero] at i1r i9t ⊢ <;>
    exact ⟨by omega, by omega⟩

/-- The invariant checked for every `Interpreter.operation` call: a
successful step keeps the length of the output-slot array, and keeps the
group-construction and group-reference counts of every group name the
operation does not (transitively) call. -/
def op_inv (geoIn multiIn : BackendOracle) (op : Operation) (s : IState) : Prop :=
  ∀ s', operation geoIn multiIn op s = .ok s' →
    s'.function_outputs.length = s.function_outputs.length
    ∧ ∀ gn, calls_group gn op = false →
        countGroupTreeNew gn s'.trace = countGroupTreeNew gn s.trace
        ∧ countGroupRefNew gn s'.trace = countGroupRefNew gn s.trace

/-- `op_inv` at `execute_node_group`. -/
def eng_inv (geoIn multiIn : BackendOracle) (g : CompiledNodeGroup)
    (args : List Value) (s : IState) : Prop :=
  ∀ s', execute_node_group geoIn multiIn g args s = .ok s' →
    s'.function_outputs.length = s.function_outputs.length
    ∧ ∀ gn, calls_group gn (.mk .CALL_NODEGROUP (.group g)) = false →
        countGroupTreeNew gn s'.trace = countGroupTreeNew gn s.trace
        ∧ countGroupRefNew gn s'.trace = countGroupRefNew gn s.trace

/-- `op_inv` at `run_body`. -/
def body_inv (geoIn multiIn : BackendOracle) (body : List Operation)
    (s : IState) : Prop :=
  ∀ s', run_body geoIn multiIn body s = .ok s' →
    s'.function_outputs.length = s.function_outputs.length
    ∧ ∀ gn, body_calls_group gn body = false →
        countGroupTreeNew gn s'.trace = countGroupTreeNew gn s.trace
        ∧ countGroupRefNew gn s'.trace = countGroupRefNew gn s.trace

/-- `op_inv` at `eval_list_literal` (which only issues `PUSH_VALUE`s). -/
def lit_inv (geoIn multiIn : BackendOracle) (elements acc : List Value)
    (s : IState) : Prop :=
  ∀ s', eval_list_literal geoIn multiIn elements acc s = .ok s' →
    s'.function_outputs.length = s.function_outputs.length
    ∧ ∀ gn,
        countGroupTreeNew gn s'.trace = countGroupTreeNew gn s.trace
        ∧ countGroupRefNew gn s'.trace = countGroupRefNew gn s.trace

theorem calls_group_push (gn : String) (e : Value) :
    calls_group gn (.mk .PUSH_VALUE e) = false := by
  simp [calls_group]

/-- The interpreter invariant, proved by the mutual functional induction of
`operation` / `execute_node_group` / `run_body` / `eval_list_literal`:
every successful step keeps the output-slot arity and, for every group
name it does not transitively call, both group-event counts. -/
theorem interp_inv (geoIn multiIn : BackendOracle) :
    ∀ (op : Operation) (s : IState), op_inv geoIn multiIn op s := by
  apply operation.induct geoIn multiIn (op_inv geoIn multiIn) (eng_inv geoIn multiIn)
    (body_inv geoIn multiIn) (lit_inv geoIn multiIn)
  -- ListLiteral interception (any op_type)
  · intro s op_type elements ih s' h
    simp only [operation] at h
    obtain ⟨hfo, hc⟩ := ih s' h
    exact ⟨hfo, fun gn _ => hc gn⟩
  -- PUSH_VALUE
  · intro s op_data hne s' h
    simp only [operation, hne] at h
    cases h
    exact ⟨rfl, fun gn _ => ⟨rfl, rfl⟩⟩
  -- CREATE_VAR: empty stack
  · intro s vn hstk s' h
    simp [operation, hstk] at h
  -- CREATE_VAR: chase diverges
  · intro s vn e tail hstk hch s' h
    simp [operation, hstk, hch] at h
  -- CREATE_VAR: success
  · intro s vn e tail hstk arg hch hok s' h
    simp only [operation, hstk, hch] at h
    rw [if_pos hok] at h
    cases h
    exact ⟨rfl, fun gn _ => ⟨rfl, rfl⟩⟩
  -- CREATE_VAR: resolved value of wrong kind
  · intro s vn e tail hstk arg hch hok s' h
    simp only [operation, hstk, hch] at h
    rw [if_neg hok] at h
    exact Except.noConfusion h
  -- CREATE_VAR: non-string payload
  · intro s data h1 h2 s' h
    simp [operation, h1, h2] at h
  -- GET_VAR: bound
  · intro s vn w hw s' h
    simp only [operation, hw] at h
    cases h
    exact ⟨rfl, fun gn _ => ⟨rfl, rfl⟩⟩
  -- GET_VAR: unbound
  · intro s vn hw s' h
    simp [operation, hw] at h
  -- GET_VAR: non-string payload
  · intro s data h1 h2 s' h
    simp [operation, h1, h2] at h
  -- GET_OUTPUT: empty stack
  · intro s index hstk s' h
    simp [operation, hstk] at h
  -- GET_OUTPUT: success
  · intro s index tail vs w hpy hstk s' h
    simp only [operation, hstk, hpy] at h
    cases h
    exact ⟨rfl, fun gn _ => ⟨rfl, rfl⟩⟩
  -- GET_OUTPUT: index out of range
  · intro s index tail vs hpy hstk s' h
    simp [operation, hstk, hpy] at h
  -- GET_OUTPUT: top of stack not a struct
  · intro s index tail v hnv hstk s' h
    simp [operation, hstk, hnv] at h
  -- GET_OUTPUT: non-int payload
  · intro s data h1 h2 s' h
    simp [operation, h1, h2] at h
  -- SET_OUTPUT: success
  · intro s index value nd hnd s' h
    simp only [operation, hnd] at h
    cases h
    refine ⟨rfl, fun gn _ => ?_⟩
    refine preserves_core_counts gn ?_
    exact preserves_core_emit _ _ rfl
  -- SET_OUTPUT: no nodes yet
  · intro s index value hnd s' h
    simp [operation, hnd] at h
  -- SET_OUTPUT: non-pair payload
  · intro s data h1 h2 s' h
    simp [operation, h1, h2] at h
  -- SET_FUNCTION_OUT: empty stack
  · intro s index hstk s' h
    simp [operation, hstk] at h
  -- SET_FUNCTION_OUT: success
  · intro s index tail a b fouts hpl hstk s' h
    simp only [operation, hstk, hpl] at h
    cases h
    exact ⟨pyListSet_length _ _ _ _ hpl, fun gn _ => ⟨rfl, rfl⟩⟩
  -- SET_FUNCTION_OUT: index out of range
  · intro s index tail a b hpl hstk s' h
    simp [operation, hstk, hpl] at h
  -- SET_FUNCTION_OUT: popped value not a socket
  · intro s index e tail hstk hne s' h
    simp [operation, hstk, hne] at h
  -- SET_FUNCTION_OUT: non-int payload
  · intro s data h1 h2 s' h
    simp [operation, h1, h2] at h
  -- SPLIT_STRUCT: empty stack
  · intro s data h1 hstk s' h
    simp [operation, h1, hstk] at h
  -- SPLIT_STRUCT: success
  · intro s data h1 tail vs hstk s' h
    simp only [operation, h1, hstk] at h
    cases h
    exact ⟨rfl, fun gn _ => ⟨rfl, rfl⟩⟩
  -- SPLIT_STRUCT: top of stack not a struct
  · intro s data h1 tail v hnv hstk s' h
    simp [operation, h1, hstk, hnv] at h
  -- CALL_FUNCTION: body fails
  · intro s inputs num_outputs body ar inner e hrb ih s' h
    simp only [operation] at h
    split at h
    · exact Except.noConfusion h
    · rename_i t hx
      exact Except.noConfusion (hrb.symm.trans hx)
  -- CALL_FUNCTION: output collection fails
  · intro s inputs num_outputs body ar inner s1 hrb e hco ih s' h
    simp only [operation] at h
    split at h
    · exact Except.noConfusion h
    · rename_i t hx1
      obtain rfl : s1 = t := Except.ok.inj (hrb.symm.trans hx1)
      split at h
      · exact Except.noConfusion h
      · rename_i p hx2
        exact Except.noConfusion (hco.symm.trans hx2)
  -- CALL_FUNCTION: success
  · intro s inputs num_outputs body ar inner s1 hrb pushed hco ih s' h
    simp only [operation] at h
    split at h
    · exact Except.noConfusion h
    · rename_i t hx1
      obtain rfl : s1 = t := Except.ok.inj (hrb.symm.trans hx1)
      split at h
      · exact Except.noConfusion h
      · rename_i p hx2
        obtain rfl : pushed = p := Except.ok.inj (hco.symm.trans hx2)
        cases h
        obtain ⟨-, hcnt⟩ := ih s1 hx1
        refine ⟨rfl, fun gn hgn => ?_⟩
        simp only [calls_group] at hgn
        exact hcnt gn hgn
  -- CALL_FUNCTION: non-function payload
  · intro s data h1 h2 s' h
    simp [operation, h1, h2] at h
  -- CALL_NODEGROUP: dispatch to execute_node_group
  · intro s g ar ih s' h
    simp only [operation] at h
    obtain ⟨hfo, hc⟩ := ih s' h
    exact ⟨hfo, fun gn hgn => hc gn hgn⟩
  -- CALL_NODEGROUP: non-group payload
  · intro s data h1 h2 s' h
    simp [operation, h1, h2] at h
  -- CALL_BUILTIN: add_builtin fails
  · intro s b ar e hab s' h
    have har : ar = get_args s.stack b.inputs.length := rfl
    rw [har] at hab
    simp [operation, hab] at h
  -- CALL_BUILTIN: success
  · intro s b ar nds hab s' h
    have har : ar = get_args s.stack b.inputs.length := rfl
    rw [har] at hab
    have hcore := add_builtin_core geoIn multiIn b _ _ nds.1 nds.2 hab
    simp only [operation, hab] at h
    split at h
    · cases h
      refine ⟨congrArg List.length hcore.1, fun gn _ => ?_⟩
      have hcg := preserves_core_counts gn hcore
      exact ⟨hcg.1, hcg.2⟩
    · split at h
      · cases h
        refine ⟨congrArg List.length hcore.1, fun gn _ => ?_⟩
        have hcg := preserves_core_counts gn hcore
        exact ⟨hcg.1, hcg.2⟩
      · cases h
        refine ⟨congrArg List.length hcore.1, fun gn _ => ?_⟩
        have hcg := preserves_core_counts gn hcore
        exact ⟨hcg.1, hcg.2⟩
  -- CALL_BUILTIN: non-builtin payload
  · intro s data h1 h2 s' h
    simp [operation, h1, h2] at h
  -- RENAME_NODE: success
  · intro s op_data hne nd hnd s' h
    simp only [operation, hne, hnd] at h
    cases h
    refine ⟨rfl, fun gn _ => ?_⟩
    refine preserves_core_counts gn ?_
    exact preserves_core_emit _ _ rfl
  -- RENAME_NODE: no nodes yet
  · intro s op_data hne hnd s' h
    simp [operation, hne, hnd] at h
  -- END_OF_STATEMENT
  · intro s data h1 s' h
    simp only [operation, h1] at h
    cases h
    exact ⟨rfl, fun gn _ => ⟨rfl, rfl⟩⟩
  -- PACK_LIST: success
  · intro s count k hk s' h
    simp only [operation] at h
    rw [if_pos hk] at h
    cases h
    exact ⟨rfl, fun gn _ => ⟨rfl, rfl⟩⟩
  -- PACK_LIST: stack too short
  · intro s count k hk s' h
    simp only [operation] at h
    rw [if_neg hk] at h
    exact Except.noConfusion h
  -- PACK_LIST: non-int payload
  · intro s data h1 h2 s' h
    simp [operation, h1, h2] at h
  -- execute_node_group: cached
  · intro args s n inputs outputs body info hinfo s' h
    simp only [execute_node_group, hinfo] at h
    cases h
    constructor
    · exact congrArg List.length (instantiate_group_node_fo n info args s)
    · intro gn hgn
      simp only [calls_group] at hgn
      obtain ⟨hg1, -⟩ := or_false_split hgn
      obtain ⟨u1, u2⟩ := instantiate_group_node_counts n info args s gn
      rw [hg1] at u2
      simp only [Bool.false_eq_true, if_false, Nat.add_zero] at u2
      exact ⟨u1, u2⟩
  -- execute_node_group: first interface loop fails
  · intro args s n inputs outputs body hnone tr s1 e hifc s' h
    simp only [execute_node_group, hnone] at h
    split at h
    · exact Except.noConfusion h
    · rename_i t1 hx1
      exact Except.noConfusion (hifc.symm.trans hx1)
  -- execute_node_group: second interface loop fails
  · intro args s n inputs outputs body hnone tr s1 sA hi1p e hi2p s' h
    simp only [execute_node_group, hnone] at h
    split at h
    · exact Except.noConfusion h
    · rename_i t1 hx1
      obtain rfl : sA = t1 := Except.ok.inj (hi1p.symm.trans hx1)
      split at h
      · exact Except.noConfusion h
      · rename_i t2 hx2
        exact Except.noConfusion (hi2p.symm.trans hx2)
  -- execute_node_group: body fails
  · intro args s n inputs outputs body hnone tr s1 sA hi1p sB hi2p giNode s4 goNode s5 inner e hrbp ih s' h
    simp only [execute_node_group, hnone] at h
    split at h
    · exact Except.noConfusion h
    · rename_i t1 hx1
      obtain rfl : sA = t1 := Except.ok.inj (hi1p.symm.trans hx1)
      split at h
      · exact Except.noConfusion h
      · rename_i t2 hx2
        obtain rfl : sB = t2 := Except.ok.inj (hi2p.symm.trans hx2)
        split at h
        · exact Except.noConfusion h
        · rename_i t3 hx3
          exact Except.noConfusion (hrbp.symm.trans hx3)
  -- execute_node_group: uncached success
  · intro args s n inputs outputs body hnone tr s1 sA hi1p sB hi2p giNode s4 goNode s5 inner s6 hrbp ih s' h
    obtain ⟨t1, t2, t3, hx1, hx2, hx3, rfl⟩ :=
      execute_uncached_inversion geoIn multiIn n inputs outputs body args s s' hnone h
    obtain rfl : sA = t1 := Except.ok.inj (hi1p.symm.trans hx1)
    obtain rfl : sB = t2 := Except.ok.inj (hi2p.symm.trans hx2)
    have hc1 := new_interface_sockets_core s.next_tree true inputs _ sA hx1
    have hc2 := new_interface_sockets_core s.next_tree false outputs sA sB hx2
    obtain ⟨-, hcnt3⟩ := ih t3 hx3
    constructor
    · rw [instantiate_group_node_fo, group_finish_state_fo, group_gateway_state_fo,
        hc2.1, hc1.1]
      rfl
    · intro gn hgn
      simp only [calls_group] at hgn
      obtain ⟨hg1, hg2⟩ := or_false_split hgn
      have hch1 : countGroupTreeNew gn t3.trace = countGroupTreeNew gn
          (group_inner_state s.next_tree inputs outputs.length sB).trace :=
        (hcnt3 gn hg2).1
      have hch2 : countGroupRefNew gn t3.trace = countGroupRefNew gn
          (group_inner_state s.next_tree inputs outputs.length sB).trace :=
        (hcnt3 gn hg2).2
      obtain ⟨u1, u2⟩ := uncached_trace_counts n inputs outputs args s sA sB t3 gn
        hx1 hx2 ⟨hch1, hch2⟩
      rw [hg1] at u1 u2
      simp only [Bool.false_eq_true, if_false, Nat.add_zero] at u1 u2
      exact ⟨u1, u2⟩
  -- run_body: empty body
  · intro s s' h
    simp only [run_body] at h
    cases h
    exact ⟨rfl, fun gn _ => ⟨rfl, rfl⟩⟩
  -- run_body: head operation fails
  · intro s op rest e hop ih s' h
    simp [run_body, hop] at h
  -- run_body: head operation succeeds
  · intro s op rest s1 hop ih1 ih2 s' h
    simp only [run_body, hop] at h
    obtain ⟨f1, c1⟩ := ih1 s1 hop
    obtain ⟨f2, c2⟩ := ih2 s' h
    refine ⟨f2.trans f1, fun gn hgn => ?_⟩
    simp only [body_calls_group] at hgn
    obtain ⟨hg1, hg2⟩ := or_false_split hgn
    obtain ⟨t1, r1⟩ := c1 gn hg1
    obtain ⟨t2, r2⟩ := c2 gn hg2
    exact ⟨t2.trans t1, r2.trans r1⟩
  -- eval_list_literal: no elements left
  · intro acc s s' h
    simp only [eval_list_literal] at h
    cases h
    exact ⟨rfl, fun gn => ⟨rfl, rfl⟩⟩
  -- eval_list_literal: inner push fails
  · intro acc s e tail e1 hop ih s' h
    simp [eval_list_literal, hop] at h
  -- eval_list_literal: inner push leaves an empty stack
  · intro acc s e tail s1 hop hstk ih s' h
    simp [eval_list_literal, hop, hstk] at h
  -- eval_list_literal: inner push succeeds
  · intro acc s e tail s1 hop e1 tail1 hstk ih1 ih2 s' h
    simp only [eval_list_literal, hop, hstk] at h
    obtain ⟨f1, c1⟩ := ih1 s1 hop
    obtain ⟨f2, c2⟩ := ih2 s' h
    refine ⟨f2.trans f1, fun gn => ?_⟩
    obtain ⟨t1, r1⟩ := c1 gn (calls_group_push gn e)
    obtain ⟨t2, r2⟩ := c2 gn
    exact ⟨t2.trans t1, r2.trans r1⟩

/-- `interp_inv` lifted to a whole operation list, at every start state. -/
theorem run_body_fo_counts (geoIn multiIn : BackendOracle)
    (body : List Operation) : ∀ s, body_inv geoIn multiIn body s := by
  induction body with
  | nil =>
    intro s s' h
    simp only [run_body] at h
    cases h
    exact ⟨rfl, fun gn _ => ⟨rfl, rfl⟩⟩
  | cons op rest ih =>
    intro s s' h
    simp only [run_body] at h
    rcases hop : operation geoIn multiIn op s with e | s1 <;> rw [hop] at h <;>
      dsimp only at h
    · exact Except.noConfusion h
    · obtain ⟨f1, c1⟩ := interp_inv geoIn multiIn op s s1 hop
      obtain ⟨f2, c2⟩ := ih s1 s' h
      refine ⟨f2.trans f1, fun gn hgn => ?_⟩
      simp only [body_calls_group] at hgn
      obtain ⟨hg1, hg2⟩ := or_false_split hgn
      obtain ⟨t1, r1⟩ := c1 gn hg1
      obtain ⟨t2, r2⟩ := c2 gn hg2
      exact ⟨t2.trans t1, r2.trans r1⟩

/-- C1: invoking `CALL_NODEGROUP` on a name that is already cached only
instantiates a reference node (the body is not re-executed: no inner tree
is built, the counts of every other group name are untouched); a
first-time invocation whose body does not call the name itself builds the
inner tree exactly once, instantiates exactly one reference node, and
caches the tree so that every later invocation of the same name takes the
reference-only path. -/
theorem execute_node_group_memoization (geoIn multiIn : BackendOracle)
    (n : String) (inputs outputs : List SocketDecl) (body : List Operation)
    (args : List Value) (s s' : IState) :
    (∀ info, dictGet s.node_group_trees n = some info →
       execute_node_group geoIn multiIn (.mk n inputs outputs body) args s
           = .ok (instantiate_group_node n info args s)
       ∧ ∀ gn,
           countGroupTreeNew gn (instantiate_group_node n info args s).trace
             = countGroupTreeNew gn s.trace
           ∧ countGroupRefNew gn (instantiate_group_node n info args s).trace
             = countGroupRefNew gn s.trace + (if n == gn then 1 else 0))
    ∧ (dictGet s.node_group_trees n = none →
       body_calls_group n body = false →
       execute_node_group geoIn multiIn (.mk n inputs outputs body) args s
           = .ok s' →
       countGroupTreeNew n s'.trace = countGroupTreeNew n s.trace + 1
       ∧ countGroupRefNew n s'.trace = countGroupRefNew n s.trace + 1
       ∧ dictGet s'.node_group_trees n = some ⟨s.next_tree, outputs.length⟩) := by
  constructor
  · intro info hinfo
    refine ⟨by simp only [execute_node_group, hinfo], fun gn => ?_⟩
    exact instantiate_group_node_counts n info args s gn
  · intro hnone hbody h
    obtain ⟨t1, t2, t3, hx1, hx2, hx3, rfl⟩ :=
      execute_uncached_inversion geoIn multiIn n inputs outputs body args s s' hnone h
    obtain ⟨-, hcnt3⟩ := run_body_fo_counts geoIn multiIn body _ t3 hx3
    have hch1 : countGroupTreeNew n t3.trace = countGroupTreeNew n
        (group_inner_state s.next_tree inputs outputs.length t2).trace :=
      (hcnt3 n hbody).1
    have hch2 : countGroupRefNew n t3.trace = countGroupRefNew n
        (group_inner_state s.next_tree inputs outputs.length t2).trace :=
      (hcnt3 n hbody).2
    obtain ⟨u1, u2⟩ := uncached_trace_counts n inputs outputs args s t1 t2 t3 n
      hx1 hx2 ⟨hch1, hch2⟩
    simp only [beq_self_eq_true, if_true] at u1 u2
    refine ⟨u1, u2, ?_⟩
    rw [instantiate_group_node_ngt, group_finish_state_ngt]
    exact dictGet_dictSet_self _ _ _

/-- Witness for C1: running the empty-bodied group `G` twice from the
initial state builds one inner tree and two reference nodes. -/
theorem execute_node_group_memoization_witness :
    ∃ s1 : IState,
      execute_node_group noOracle noOracle (.mk "G" [] [] []) []
          (init_state "GeometryNodeTree") = .ok s1
      ∧ countGroupTreeNew "G" s1.trace = 1
      ∧ countGroupRefNew "G" s1.trace = 1
      ∧ ∃ s2 : IState,
          execute_node_group noOracle noOracle (.mk "G" [] [] []) [] s1 = .ok s2
          ∧ countGroupTreeNew "G" s2.trace = 1
          ∧ countGroupRefNew "G" s2.trace = 2 := by
  rcases hrun : execute_node_group noOracle noOracle (.mk "G" [] [] []) []
      (init_state "GeometryNodeTree") with e | s1
  · exact absurd hrun (by
      simp [execute_node_group, init_state, dictGet, dictSet, new_interface_sockets,
        run_body, connect_group_outputs, instantiate_group_node, connect_group_args,
        emit, group_inner_state, group_gateway_state, group_finish_state])
  · have h0 : dictGet (init_state "GeometryNodeTree").node_group_trees "G" = none := by
      simp [init_state, dictGet]
    have hb : body_calls_group "G" ([] : List Operation) = false := by
      simp [body_calls_group]
    obtain ⟨u1, u2, hc⟩ :=
      (execute_node_group_memoization noOracle noOracle "G" [] [] [] []
        (init_state "GeometryNodeTree") s1).2 h0 hb hrun
    have hcnt0t : countGroupTreeNew "G" (init_state "GeometryNodeTree").trace = 0 := by
      simp [init_state, countGroupTreeNew]
    have hcnt0r : countGroupRefNew "G" (init_state "GeometryNodeTree").trace = 0 := by
      simp [init_state, countGroupRefNew]
    obtain ⟨hrun2, hcounts2⟩ :=
      (execute_node_group_memoization noOracle noOracle "G" [] [] [] [] s1 s1).1
        ⟨(init_state "GeometryNodeTree").next_tree, 0⟩ hc
    obtain ⟨v1, v2⟩ := hcounts2 "G"
    refine ⟨s1, rfl, by omega, by omega, _, hrun2, ?_, ?_⟩
    · simp only [v1]
      omega
    · simp only [v2, beq_self_eq_true, if_true]
      omega

/-- C10: a call whose descriptor declares zero outputs pushes nothing: the
stack after a successful `CALL_BUILTIN` (empty `outputs` index list),
`CALL_FUNCTION` (`num_outputs = 0`) or `CALL_NODEGROUP` (empty `outputs`
declaration list, and any cached tree also recorded with zero outputs) is
exactly the pre-call stack with the argument values popped. -/
theorem zero_output_calls_push_nothing (geoIn multiIn : BackendOracle) :
    (∀ (key : String) (props : List (String × Value)) (bins : List Nat)
        (s s' : IState),
        operation geoIn multiIn
            (.mk .CALL_BUILTIN (.builtin (.mk key props bins []))) s = .ok s' →
        s'.stack = s.stack.drop bins.length)
    ∧ (∀ (inputs : List String) (body : List Operation) (s s' : IState),
        operation geoIn multiIn
            (.mk .CALL_FUNCTION (.func (.mk inputs 0 body))) s = .ok s' →
        s'.stack = s.stack.drop inputs.length)
    ∧ (∀ (n : String) (gins : List SocketDecl) (body : List Operation)
        (s s' : IState),
        (∀ info, dictGet s.node_group_trees n = some info →
          info.num_outputs = 0) →
        operation geoIn multiIn
            (.mk .CALL_NODEGROUP (.group (.mk n gins [] body))) s = .ok s' →
        s'.stack = s.stack.drop gins.length) := by
  refine ⟨?_, ?_, ?_⟩
  · intro key props bins s s' h
    simp only [operation] at h
    split at h
    · exact Except.noConfusion h
    · rename_i nds hab
      simp only [NodeInstance.outputs] at h
      rw [if_neg (by simp)] at h
      cases h
      have hcore := add_builtin_core geoIn multiIn _ _ _ nds.1 nds.2 hab
      have hs2 : nds.2.stack = s.stack.drop bins.length := by
        rw [hcore.2.1]
        simp [get_args_snd, NodeInstance.inputs]
      exact hs2
  · intro inputs body s s' h
    simp only [operation] at h
    split at h
    · exact Except.noConfusion h
    · rename_i t hrb
      have hfo := (run_body_fo_counts geoIn multiIn body _ t hrb).1
      have hz : t.function_outputs.length = 0 := hfo
      have ht : t.function_outputs = [] := List.length_eq_zero.mp hz
      rw [ht] at h
      simp [collect_function_outputs] at h
      cases h
      simp [get_args_snd]
  · intro n gins body s s' hz h
    simp only [operation] at h
    rcases hd : dictGet s.node_group_trees n with _ | info
    · obtain ⟨t1, t2, t3, hx1, hx2, hx3, rfl⟩ :=
        execute_uncached_inversion geoIn multiIn n gins [] body _
          {s with stack := (get_args s.stack
            (CompiledNodeGroup.mk n gins [] body).inputs.length).2} _ hd h
      have hc1 := new_interface_sockets_core _ _ _ _ _ hx1
      have hc2 := new_interface_sockets_core _ _ _ _ _ hx2
      rw [instantiate_group_node_stack_zero _ _ _ _ rfl, group_finish_state_stack,
        group_gateway_state_stack, hc2.2.1, hc1.2.1]
      simp [emit, CompiledNodeGroup.inputs, get_args_snd]
    · simp only [execute_node_group, hd] at h
      cases h
      rw [instantiate_group_node_stack_zero _ _ _ _ (hz info hd)]
      simp [CompiledNodeGroup.inputs, get_args_snd]

/-- Witness for C10: concrete zero-output builtin, function and node-group
calls on the initial state leave the (empty) stack empty. -/
theorem zero_output_calls_push_nothing_witness :
    (∃ s' : IState,
      operation noOracle noOracle
          (.mk .CALL_BUILTIN (.builtin (.mk "GeometryNodeJoinGeometry" [] [] [])))
          (init_state "GeometryNodeTree") = .ok s'
      ∧ s'.stack = [])
    ∧ (∃ s' : IState,
      operation noOracle noOracle (.mk .CALL_FUNCTION (.func (.mk [] 0 [])))
          (init_state "GeometryNodeTree") = .ok s'
      ∧ s'.stack = [])
    ∧ (∃ s' : IState,
      operation noOracle noOracle (.mk .CALL_NODEGROUP (.group (.mk "G" [] [] [])))
          (init_state "GeometryNodeTree") = .ok s'
      ∧ s'.stack = []) := by
  have hthm := zero_output_calls_push_nothing noOracle noOracle
  refine ⟨?_, ?_, ?_⟩
  · rcases hrun : operation noOracle noOracle
        (.mk .CALL_BUILTIN (.builtin (.mk "GeometryNodeJoinGeometry" [] [] [])))
        (init_state "GeometryNodeTree") with e | st
    · exact absurd hrun (by
        simp [operation, add_builtin, set_props, connect_builtin_args, get_args,
          emit, init_state])
    · have := hthm.1 "GeometryNodeJoinGeometry" [] [] _ _ hrun
      exact ⟨st, rfl, by simpa [init_state] using this⟩
  · rcases hrun : operation noOracle noOracle
        (.mk .CALL_FUNCTION (.func (.mk [] 0 [])))
        (init_state "GeometryNodeTree") with e | st
    · exact absurd hrun (by
        simp [operation, run_body, collect_function_outputs, get_args, zipBind,
          init_state])
    · have := hthm.2.1 [] [] _ _ hrun
      exact ⟨st, rfl, by simpa [init_state] using this⟩
  · rcases hrun : operation noOracle noOracle
        (.mk .CALL_NODEGROUP (.group (.mk "G" [] [] [])))
        (init_state "GeometryNodeTree") with e | st
    · exact absurd hrun (by
        simp [operation, execute_node_group, init_state, dictGet, dictSet,
          new_interface_sockets, run_body, connect_group_outputs,
          instantiate_group_node, connect_group_args, emit, get_args])
    · have := hthm.2.2 "G" [] [] _ _
        (by intro info hinfo; simp [init_state, dictGet] at hinfo) hrun
      exact ⟨st, rfl, by simpa [init_state] using this⟩

/-! ### Panic-mode recovery lemmas (`mf_parser.py`) -/

/-- `advance` on an empty buffer and exhausted stream: the scanner yields
the end-of-input marker. -/
theorem advance_nil_eq (s : Parser.PState) (hb : s.token_buffer = [])
    (ht : s.tokens = []) :
    Parser.advance s
      = {s with previous := s.current, current := Parser.eol_token} := by
  simp [Parser.advance, hb, ht, Parser.advance_loop, Parser.next_token,
    Parser.scan_token, Parser.eol_token]

/-- `advance` on an empty buffer and a non-`ERROR` head token. -/
theorem advance_cons_eq (s : Parser.PState) (t : Token) (rest : List Token)
    (hb : s.token_buffer = []) (ht : s.tokens = t :: rest)
    (he : t.token_type ≠ .ERROR) :
    Parser.advance s
      = {s with previous := s.current, current := t, tokens := rest} := by
  simp [Parser.advance, hb, ht, Parser.advance_loop, Parser.next_token,
    Parser.scan_token, beq_iff_eq, he]

/-- `synchronize`'s scan loop is the identity on a state that has already
reached a synchronization point. -/
theorem sync_loop_stopped (fuel : Nat) (s : Parser.PState)
    (h : sync_stopped s) : Parser.sync_loop fuel s = s := by
  cases fuel with
  | zero => rfl
  | succ f =>
    rcases h with h | h | h | h | h <;> simp [Parser.sync_loop, h]

/-- The scan loop on an exhausted stream whose lookahead is already the
end-of-input marker: within one step the previous token becomes the
marker, so it stops with the diagnostics and the panic flag untouched. -/
theorem sync_loop_empty (f : Nat) (s : Parser.PState)
    (hb : s.token_buffer = []) (ht : s.tokens = [])
    (hcur : s.current.token_type = .EOL) (hf : 1 ≤ f) :
    (Parser.sync_loop f s).errors = s.errors
    ∧ (Parser.sync_loop f s).panic_mode = s.panic_mode
    ∧ sync_stopped (Parser.sync_loop f s) := by
  by_cases h1 : s.previous.token_type = .EOL
  · rw [sync_loop_stopped _ _ (Or.inl h1)]
    exact ⟨rfl, rfl, Or.inl h1⟩
  · by_cases h2 : s.previous.token_type = .SEMICOLON
    · rw [sync_loop_stopped _ _ (Or.inr (Or.inl h2))]
      exact ⟨rfl, rfl, Or.inr (Or.inl h2)⟩
    · have h3 : ¬s.current.token_type = .OUT := by simp [hcur]
      have h4 : ¬s.current.token_type = .FUNCTION := by simp [hcur]
      have h5 : ¬s.current.token_type = .NODEGROUP := by simp [hcur]
      obtain ⟨f1, rfl⟩ : ∃ f1, f = f1 + 1 := ⟨f - 1, by omega⟩
      have hstep : Parser.sync_loop (f1 + 1) s
          = Parser.sync_loop f1 (Parser.advance s) := by
        simp [Parser.sync_loop, beq_iff_eq, h1, h2, h3, h4, h5]
      rw [hstep, advance_nil_eq s hb ht]
      rw [sync_loop_stopped _ _ (Or.inl (by simpa using hcur))]
      exact ⟨rfl, rfl, Or.inl (by simpa using hcur)⟩

/-- The scan loop with an empty pushback buffer and no `ERROR` token left
in the stream: it stops at a synchronization point without recording any
diagnostic or re-entering panic mode. -/
theorem sync_loop_ok : ∀ (fuel : Nat) (s : Parser.PState),
    s.token_buffer = [] → (∀ t ∈ s.tokens, t.token_type ≠ .ERROR) →
    s.tokens.length + 2 ≤ fuel →
    (Parser.sync_loop fuel s).errors = s.errors
    ∧ (Parser.sync_loop fuel s).panic_mode = s.panic_mode
    ∧ sync_stopped (Parser.sync_loop fuel s) := by
  intro fuel
  induction fuel with
  | zero => intro s _ _ hf; omega
  | succ f ih =>
    intro s hb he hf
    by_cases h1 : s.previous.token_type = .EOL
    · rw [sync_loop_stopped _ _ (Or.inl h1)]
      exact ⟨rfl, rfl, Or.inl h1⟩
    · by_cases h2 : s.previous.token_type = .SEMICOLON
      · rw [sync_loop_stopped _ _ (Or.inr (Or.inl h2))]
        exact ⟨rfl, rfl, Or.inr (Or.inl h2)⟩
      · by_cases h3 : s.current.token_type = .OUT
        · rw [sync_loop_stopped _ _ (Or.inr (Or.inr (Or.inl h3)))]
          exact ⟨rfl, rfl, Or.inr (Or.inr (Or.inl h3))⟩
        · by_cases h4 : s.current.token_type = .FUNCTION
          · rw [sync_loop_stopped _ _ (Or.inr (Or.inr (Or.inr (Or.inl h4))))]
            exact ⟨rfl, rfl, Or.inr (Or.inr (Or.inr (Or.inl h4)))⟩
          · by_cases h5 : s.current.token_type = .NODEGROUP
            · rw [sync_loop_stopped _ _ (Or.inr (Or.inr (Or.inr (Or.inr h5))))]
              exact ⟨rfl, rfl, Or.inr (Or.inr (Or.inr (Or.inr h5)))⟩
            · have hstep : Parser.sync_loop (f + 1) s
                  = Parser.sync_loop f (Parser.advance s) := by
                simp [Parser.sync_loop, beq_iff_eq, h1, h2, h3, h4, h5]
              rw [hstep]
              rcases htok : s.tokens with _ | ⟨t, rest⟩
              · rw [advance_nil_eq s hb htok]
                have := sync_loop_empty f
                  {s with previous := s.current, current := Parser.eol_token}
                  (by simpa using hb) (by simpa using htok) rfl
                  (by rw [htok] at hf; simp at hf; omega)
                simpa using this
              · rw [advance_cons_eq s t rest hb htok
                  (he t (by rw [htok]; exact List.mem_cons_self t rest))]
                have hrest : ∀ t' ∈ rest, t'.token_type ≠ .ERROR := by
                  intro t' ht'
                  exact he t' (by rw [htok]; exact List.mem_cons_of_mem t ht')
                have := ih {s with previous := s.current, current := t, tokens := rest}
                  (by simpa using hb) (by simpa using hrest)
                  (by rw [htok] at hf; simp at hf ⊢; omega)
                simpa using this

/-- `Parser.synchronize` with an empty pushback buffer and no `ERROR`
token left: panic mode is off afterwards, no diagnostic is added, and the
result sits at a synchronization point. -/
theorem synchronize_ok (s : Parser.PState) (hb : s.token_buffer = [])
    (he : ∀ t ∈ s.tokens, t.token_type ≠ .ERROR) :
    (Parser.synchronize s).errors = s.errors
    ∧ (Parser.synchronize s).panic_mode = false
    ∧ sync_stopped (Parser.synchronize s) := by
  unfold Parser.synchronize
  have := sync_loop_ok (s.token_buffer.length + s.tokens.length + 2)
    {s with panic_mode := false} (by simpa using hb) (by simpa using he)
    (by simp)
  simpa using this

/-- C3: every binary operator of the rule table — including `^` and `**`
(exponentiation) — parses left-associatively: `2 o 3 o 4` yields
`(2 o 3) o 4`, because `binary` parses its right operand at the
operator's own table precedence plus one.  In particular `2^3^2` parses
as `(2^3)^2`, not `2^(3^2)`. -/
theorem binary_operators_left_associative (o : BinOpTok) :
    (Parser.parse_source pyZero
        [mkTok "2" .INT, mkTok "o" o.toTokenType, mkTok "3" .INT,
         mkTok "o" o.toTokenType, mkTok "4" .INT, mkTok "" .EOL]).map
      (fun r => (r.1, r.2.errors))
    = .ok (⟨[.exprStmt (.binOp (mkTok "o" o.toTokenType)
        (.binOp (mkTok "o" o.toTokenType)
          (.constant (mkTok "2" .INT) (.int (Parser.int_of_lexeme "2")) DataType.INT)
          ⟨(Parser.bin_kind_of o.toTokenType).getD .add, mkTok "o" o.toTokenType⟩
          (.constant (mkTok "3" .INT) (.int (Parser.int_of_lexeme "3")) DataType.INT))
        ⟨(Parser.bin_kind_of o.toTokenType).getD .add, mkTok "o" o.toTokenType⟩
        (.constant (mkTok "4" .INT) (.int (Parser.int_of_lexeme "4")) DataType.INT))]⟩, []) := by
  cases o <;> rfl

/-- C6: `parse` can raise.  The token stream of the source text `()()`
reaches the reachable `assert func is not None, "Error in the parser"`
inside the `call` rule (the first `()` leaves `curr_node = None`), and a
`!`-expression whose host evaluation raises an exception class outside
the caught four — here `math.sqrt(-1)` raising `ValueError` — propagates
the host exception out of `parse` instead of recording a diagnostic. -/
theorem parse_raises_on_malformed_input :
    Parser.parse_source pyZero
      [mkTok "(" .LEFT_PAREN, mkTok ")" .RIGHT_PAREN,
       mkTok "(" .LEFT_PAREN, mkTok ")" .RIGHT_PAREN, mkTok "" .EOL]
      = .error (.assertionError "Error in the parser")
    ∧ Parser.parse_source pySqrt [mkTok "!sqrt(-1)" .PYTHON, mkTok "" .EOL]
      = .error (.hostException "ValueError: math domain error") := by
  exact ⟨rfl, rfl⟩

/-- C7 counterexample: one malformed spot can record two diagnostics
before the parser reaches a synchronization point.  `synchronize` clears
`panic_mode` on entry, so when its scan loop meets an `ERROR` token —
still inside the recovery of the first diagnostic, before any statement
boundary — `advance`'s `error_at` call records a second diagnostic. -/
theorem sync_reports_during_recovery :
    (Parser.parse_source pyZero
        [mkTok "." .DOT, mkTok ":" .COLON,
         ⟨"$", .ERROR, 0, 0, 0, some "Unexpected character."⟩,
         mkTok ":" .COLON, mkTok "" .EOL]).map (fun r => r.2.errors.length)
      = .ok 2 := by
  rfl

/-- C7 (amended): while `panic_mode` is set `error_at` records nothing;
a diagnostic recorded outside panic mode is exactly one entry and raises
the panic flag; and `synchronize` — provided its scan meets no `ERROR`
token — records nothing and stops at a synchronization point (a consumed
end-of-line marker or semicolon, or a lookahead `out` / `function` /
`nodegroup`), with panic mode off so parsing resumes. -/
theorem panic_mode_one_diagnostic_until_sync :
    (∀ (tok : Token) (msg : String) (s : Parser.PState),
        s.panic_mode = true → Parser.error_at tok msg s = s)
    ∧ (∀ (tok : Token) (msg : String) (s : Parser.PState),
        s.panic_mode = false →
        (Parser.error_at tok msg s).panic_mode = true
        ∧ (Parser.error_at tok msg s).errors.length = s.errors.length + 1
        ∧ (Parser.error_at tok msg s).had_error = true)
    ∧ (∀ s : Parser.PState, s.token_buffer = [] →
        (∀ t ∈ s.tokens, t.token_type ≠ .ERROR) →
        (Parser.synchronize s).errors = s.errors
        ∧ (Parser.synchronize s).panic_mode = false
        ∧ sync_stopped (Parser.synchronize s)) := by
  refine ⟨?_, ?_, ?_⟩
  · intro tok msg s hp
    simp [Parser.error_at, hp]
  · intro tok msg s hp
    simp [Parser.error_at, hp]
  · intro s hb he
    exact synchronize_ok s hb he

/-- Witness for C7: the three panic-discipline facts at a concrete state
(`x` followed by end of input). -/
theorem panic_mode_one_diagnostic_until_sync_witness :
    (Parser.error_at (mkTok "" .EOL) "m"
        (Parser.error_at (mkTok "" .EOL) "m"
          (Parser.mk_state [mkTok "x" .IDENTIFIER]))
      = Parser.error_at (mkTok "" .EOL) "m"
          (Parser.mk_state [mkTok "x" .IDENTIFIER]))
    ∧ (Parser.error_at (mkTok "" .EOL) "m"
        (Parser.mk_state [mkTok "x" .IDENTIFIER])).errors.length = 1
    ∧ (Parser.synchronize (Parser.mk_state [mkTok "x" .IDENTIFIER])).panic_mode
        = false
    ∧ sync_stopped (Parser.synchronize (Parser.mk_state [mkTok "x" .IDENTIFIER])) := by
  have h := panic_mode_one_diagnostic_until_sync
  have hsync := h.2.2 (Parser.mk_state [mkTok "x" .IDENTIFIER]) rfl
    (by intro t ht; simp [Parser.mk_state] at ht)
  refine ⟨?_, ?_, hsync.2.1, hsync.2.2⟩
  · exact h.1 (mkTok "" .EOL) "m" _ rfl
  · have := (h.2.1 (mkTok "" .EOL) "m" (Parser.mk_state [mkTok "x" .IDENTIFIER]) rfl).2.1
    simpa [Parser.mk_state] using this

end MF
